import Mathlib

/-!
Shallow embedding of the course-sections service (`mcp_service.py`) and the
intent resolver of `course_advisor_agent.py`, together with theorems settling
the specification claims about them.

Modelling conventions
* Python values reaching the normalizer are JSON scalars; we model them with
  `PyVal` (`null` covers both an absent key and an explicit `None`, since
  `dict.get` collapses the two).  A Python operation that would raise
  (e.g. calling `.strip()` on an `int`) is modelled by returning `none` in the
  `Option` monad.
* Python `str.strip()` removes the six ASCII whitespace characters from both
  ends; `str.lower()`/`str.upper()` are modelled per character (the dataset
  strings are ASCII).  Python's `in`, `startswith` and lexicographic `<=` on
  strings are modelled on the underlying character lists, comparing code
  points, exactly as CPython compares ASCII strings.
* `re` patterns are modelled by explicit scanners that follow the leftmost
  match / greedy-with-backtracking discipline of the Python `re` module on the
  concrete patterns used by the source (`\b` is the transition between a word
  character `[A-Za-z0-9_]` and a non-word character or the string edge; `\d`,
  `\s`, `\w` are taken in their ASCII reading, which is what the dataset
  contains).
-/

namespace CourseAdvisor

/-- A JSON scalar as it reaches the normalizer: absent/None, a string, or a
number (the dataset's `Crs_Number`/`Sec_Number`/`AcadLevel` may be numeric). -/
inductive PyVal where
  | null : PyVal
  | str (s : String) : PyVal
  | int (n : Int) : PyVal
deriving DecidableEq, Repr

/-- Python truthiness for the values of `PyVal`: `None`, `""` and `0` are
falsy, everything else is truthy. -/
def PyVal.truthy : PyVal → Bool
  | .null => false
  | .str s => s ≠ ""
  | .int n => n ≠ 0

/-- Python `a or b` restricted to the values we model. -/
def pyOr (a b : PyVal) : PyVal := if a.truthy then a else b

/-- Python `str(v)` on the values we model. -/
def pyStr : PyVal → String
  | .null => "None"
  | .str s => s
  | .int n => toString n

/-- The six characters removed by Python's argumentless `str.strip()`. -/
def isPySpace (c : Char) : Bool :=
  c = ' ' || c = '\t' || c = '\n' || c = '\x0d' || c = '\x0b' || c = '\x0c'

/-- Drop trailing characters satisfying `p` (via reverse). -/
def dropTrail (p : Char → Bool) (l : List Char) : List Char :=
  (l.reverse.dropWhile p).reverse

/-- Python `s.strip()` on the character list. -/
def pyStripL (l : List Char) : List Char := dropTrail isPySpace (l.dropWhile isPySpace)

/-- Python `s.strip()`. -/
def pyStrip (s : String) : String := ⟨pyStripL s.data⟩

/-- Python `s.strip(" –")` (used by `sec_time_str`): strips spaces and the
en-dash from both ends. -/
def pyStripDash (s : String) : String :=
  let p : Char → Bool := fun c => c = ' ' || c = '–'
  ⟨dropTrail p (s.data.dropWhile p)⟩

/-- Python `s.lower()` (ASCII reading). -/
def pyLower (s : String) : String := ⟨s.data.map Char.toLower⟩

/-- Python `s.upper()` (ASCII reading). -/
def pyUpper (s : String) : String := ⟨s.data.map Char.toUpper⟩

/-- Python substring test `needle in hay` on character lists. -/
def pyInL (needle : List Char) : List Char → Bool
  | [] => needle.isEmpty
  | c :: rest => needle.isPrefixOf (c :: rest) || pyInL needle rest

/-- Python `needle in hay` for strings. -/
def pyIn (needle hay : String) : Bool := pyInL needle.data hay.data

/-- Python lexicographic `a <= b` on character lists (code-point order). -/
def lexLE : List Char → List Char → Bool
  | [], _ => true
  | _ :: _, [] => false
  | a :: as, b :: bs =>
    if a.toNat < b.toNat then true
    else if b.toNat < a.toNat then false
    else lexLE as bs

/-- Python `a <= b` for strings. -/
def strLE (a b : String) : Bool := lexLE a.data b.data

/-- `mcp_service._norm`: `(s or "").strip()`.  Returns `none` when the Python
code would raise (`.strip()` on a truthy non-string). -/
def _norm (v : PyVal) : Option String :=
  match pyOr v (.str "") with
  | .str s => some (pyStrip s)
  | _ => none

/-- The composite `_norm(str(v or ""))` used for the numeric-tolerant fields
(`Crs_Number`, `Sec_Number`, `AcadLevel`); `str` makes it total. -/
def _normStr (v : PyVal) : String := pyStrip (pyStr (pyOr v (.str "")))

/-- A raw section record: the keys read anywhere by `mcp_service.py`.
A key that is absent from the JSON object is `.null` (Python `dict.get`
returns `None` for it). -/
structure Record where
  Subject : PyVal := .null
  Crs_Number : PyVal := .null
  Sec_Number : PyVal := .null
  Section_Name : PyVal := .null
  Section_Title : PyVal := .null
  Period_RefID : PyVal := .null
  AcadLevel : PyVal := .null
  MtgPattern : PyVal := .null
  StartDt : PyVal := .null
  EndDt : PyVal := .null
  Desc : PyVal := .null
  CourseTitle : PyVal := .null
  course_title : PyVal := .null
  CourseDescription : PyVal := .null
  description : PyVal := .null
  Department : PyVal := .null
  department : PyVal := .null
deriving DecidableEq, Repr

/-- A value that can never make `_norm` raise: absent/None or a string. -/
def PyVal.isStrOrNull : PyVal → Bool
  | .int _ => false
  | _ => true

/-- Well-formedness of a record: every field is a string or null, so every
normalizer derivation succeeds. -/
def Record.wf (r : Record) : Bool :=
  r.Subject.isStrOrNull && r.Crs_Number.isStrOrNull && r.Sec_Number.isStrOrNull &&
  r.Section_Name.isStrOrNull && r.Section_Title.isStrOrNull && r.Period_RefID.isStrOrNull &&
  r.AcadLevel.isStrOrNull && r.MtgPattern.isStrOrNull && r.StartDt.isStrOrNull &&
  r.EndDt.isStrOrNull && r.Desc.isStrOrNull && r.CourseTitle.isStrOrNull &&
  r.course_title.isStrOrNull && r.CourseDescription.isStrOrNull && r.description.isStrOrNull &&
  r.Department.isStrOrNull && r.department.isStrOrNull

/-- `mcp_service.sec_raw_id`.  The four locals are evaluated up front, exactly
as in the Python function body, so a bad `Section_Name` raises even when the
first branch would have returned. -/
def sec_raw_id (s : Record) : Option String := do
  let subj ← _norm s.Subject
  let num := _normStr s.Crs_Number
  let sec := _normStr s.Sec_Number
  let name ← _norm s.Section_Name
  if subj ≠ "" ∧ num ≠ "" ∧ sec ≠ "" then
    pure (subj ++ " " ++ num ++ "-" ++ sec)
  else if name ≠ "" then
    pure name
  else do
    let t ← _norm s.Section_Title
    let p ← _norm s.Period_RefID
    pure (t ++ "|" ++ p)

/-- `mcp_service.sec_id`. -/
def sec_id (s : Record) : Option String := sec_raw_id s

/-- `mcp_service.sec_name`. -/
def sec_name (s : Record) : Option String := do
  let name ← _norm s.Section_Name
  if name ≠ "" then
    pure name
  else do
    let subj ← _norm s.Subject
    let num := _normStr s.Crs_Number
    let sec := _normStr s.Sec_Number
    pure (pyStrip (subj ++ " " ++ num ++ "-" ++ sec))

/-- `mcp_service.sec_title`: `_norm(s.get("Section_Title") or s.get("CourseTitle")
or s.get("course_title") or "")`. -/
def sec_title (s : Record) : Option String :=
  _norm (pyOr s.Section_Title (pyOr s.CourseTitle (pyOr s.course_title (.str ""))))

/-- `mcp_service.sec_desc`. -/
def sec_desc (s : Record) : Option String :=
  _norm (pyOr s.Desc (pyOr s.CourseDescription (pyOr s.description (.str ""))))

/-- `mcp_service.sec_dept`. -/
def sec_dept (s : Record) : Option String :=
  _norm (pyOr s.Subject (pyOr s.Department (pyOr s.department (.str ""))))

/-- `re.fullmatch("[1-4]00", lvl)` as a Boolean test. -/
def isCanonicalLevel (lvl : String) : Bool :=
  match lvl.data with
  | [d, z1, z2] => ('1' ≤ d && d ≤ '4') && z1 = '0' && z2 = '0'
  | _ => false

/-- `mcp_service.sec_level`: the explicit `AcadLevel` when it full-matches
`[1-4]00`, else the first digit of the course number followed by `"00"`, else
`""`.  Total, because both fields go through `str(... or "")`. -/
def sec_level (s : Record) : String :=
  let lvl := _normStr s.AcadLevel
  if isCanonicalLevel lvl then lvl
  else
    let num := _normStr s.Crs_Number
    match num.data.find? Char.isDigit with
    | some d => String.mk [d] ++ "00"
    | none => ""

/-- `mcp_service.sec_time_str`. -/
def sec_time_str (s : Record) : Option String := do
  let mtg ← _norm s.MtgPattern
  if mtg ≠ "" then
    pure mtg
  else do
    let start ← _norm s.StartDt
    let e ← _norm s.EndDt
    pure (pyStripDash (start ++ " – " ++ e))

/-- Total projection of `sec_id` (meaningful under `Record.wf`). -/
def sec_idD (r : Record) : String := (sec_id r).getD ""

/-- Total projection of `sec_name`. -/
def sec_nameD (r : Record) : String := (sec_name r).getD ""

/-- Total projection of `sec_title`. -/
def sec_titleD (r : Record) : String := (sec_title r).getD ""

/-- Total projection of `sec_desc`. -/
def sec_descD (r : Record) : String := (sec_desc r).getD ""

/-- Total projection of `sec_dept`. -/
def sec_deptD (r : Record) : String := (sec_dept r).getD ""

/-- Total projection of `sec_time_str`. -/
def sec_timeD (r : Record) : String := (sec_time_str r).getD ""

/-! ### Time bucketer (`_DEF_BINS`, `_time_in_bin`) -/

/-- Python regex word character (`\w`, ASCII reading). -/
def isWordChar (c : Char) : Bool := c.isAlphanum || c = '_'

/-- A `\b` holds at the point just before `rest` when the previous character
was a word character iff the next one is not; this helper is used where the
previous character is known to be a word character. -/
def boundaryAfter : List Char → Bool
  | [] => true
  | c :: _ => !isWordChar c

/-- Attempt `(\d{1,2}):(\d{2})\b` at the current position with a two-digit
hour (the greedy first try of `\d{1,2}`). -/
def tryHHMM2 : List Char → Option (String × String)
  | d1 :: d2 :: ':' :: m1 :: m2 :: rest =>
    if d1.isDigit && d2.isDigit && m1.isDigit && m2.isDigit && boundaryAfter rest then
      some (⟨[d1, d2]⟩, ⟨[m1, m2]⟩)
    else none
  | _ => none

/-- Attempt `(\d{1,2}):(\d{2})\b` at the current position with a one-digit
hour (the backtracked second try). -/
def tryHHMM1 : List Char → Option (String × String)
  | d1 :: ':' :: m1 :: m2 :: rest =>
    if d1.isDigit && m1.isDigit && m2.isDigit && boundaryAfter rest then
      some (⟨[d1]⟩, ⟨[m1, m2]⟩)
    else none
  | _ => none

/-- Leftmost search for `\b(\d{1,2}):(\d{2})\b`; the Boolean argument records
whether the previous character was a word character (for the leading `\b`). -/
def findHHMMAux : Bool → List Char → Option (String × String)
  | _, [] => none
  | prevWord, c :: rest =>
    if !prevWord && c.isDigit then
      match tryHHMM2 (c :: rest) <|> tryHHMM1 (c :: rest) with
      | some r => some r
      | none => findHHMMAux (isWordChar c) rest
    else findHHMMAux (isWordChar c) rest

/-- `re.search(r"\b(\d{1,2}):(\d{2})\b", t)`: the captured hour and minute
digit strings of the first match. -/
def findHHMM (t : String) : Option (String × String) := findHHMMAux false t.data

/-- Case-insensitive search for `\bXY\b` where `x y` are the lowercase forms
of the two letters (used for `\bAM\b` / `\bPM\b`). -/
def hasToken2 (x y : Char) : Bool → List Char → Bool
  | _, [] => false
  | prev, c :: rest =>
    (!prev && c.toLower = x &&
      (match rest with
       | c2 :: rest2 => c2.toLower = y && boundaryAfter rest2
       | [] => false))
    || hasToken2 x y (isWordChar c) rest

/-- `re.search(r"\bPM\b", s, re.IGNORECASE)` as a Boolean. -/
def hasPM (s : String) : Bool := hasToken2 'p' 'm' false s.data

/-- `re.search(r"\bAM\b", s, re.IGNORECASE)` as a Boolean. -/
def hasAM (s : String) : Bool := hasToken2 'a' 'm' false s.data

/-- `t[:t.find("-")] if "-" in t else t`: the text before the first dash. -/
def preOf (t : String) : String :=
  if t.data.contains '-' then ⟨t.data.takeWhile (· ≠ '-')⟩ else t

/-- `int(digits)` for a non-empty ASCII digit string. -/
def decDigits (s : String) : Nat := s.data.foldl (fun a c => 10 * a + (c.toNat - 48)) 0

/-- Python `f"{hh:02d}"` for a natural number. -/
def pad2 (n : Nat) : String := if n < 10 then "0" ++ toString n else toString n

/-- The start time resolved by `_time_in_bin`: first `HH:MM` in the text,
12-hour → 24-hour adjusted by an `AM`/`PM` token found before the first dash,
rendered as a zero-padded string. -/
def resolveStart (t : String) : Option String :=
  match findHHMM t with
  | none => none
  | some (hhs, mms) =>
    let hh := decDigits hhs
    let pre := preOf t
    let hh := if hasPM pre && hh ≠ 12 then hh + 12 else hh
    let hh := if hasAM pre && hh = 12 then 0 else hh
    some (pad2 hh ++ ":" ++ mms)

/-- `mcp_service._DEF_BINS`. -/
def _DEF_BINS : String → Option (String × String)
  | "morning" => some ("06:00", "11:59")
  | "afternoon" => some ("12:00", "17:00")
  | "evening" => some ("17:01", "22:59")
  | _ => none

/-- `mcp_service._time_in_bin`: unknown label or empty text is `False`;
otherwise the resolved start time is compared lexicographically against the
bucket bounds. -/
def _time_in_bin (t label : String) : Bool :=
  match _DEF_BINS label with
  | none => false
  | some (lo, hi) =>
    if t = "" then false
    else
      match resolveStart t with
      | none => false
      | some start => strLE lo start && strLE start hi

/-! ### Query engine -/

/-- `mcp_service._contains`: `b.lower() in a.lower()`. -/
def _contains (a b : String) : Bool := pyIn (pyLower b) (pyLower a)

/-- Output row of `find_courses`. -/
structure CourseRow where
  section_id : String
  section_name : String
  course_title : String
  department : String
  level : String
  time : String
deriving DecidableEq, Repr

/-- Output row of `find_sections_by_department`. -/
structure DeptRow where
  section_id : String
  section_name : String
  course_title : String
  time : String
deriving DecidableEq, Repr

/-- Output row of `find_sections_by_level` and `find_sections_by_time`. -/
structure ShortRow where
  section_id : String
  section_name : String
  course_title : String
deriving DecidableEq, Repr

/-- Output row of `find_sections_filtered` (carries the description preview). -/
structure DetailRow where
  section_id : String
  section_name : String
  course_title : String
  department : String
  level : String
  time : String
  preview : String
deriving DecidableEq, Repr

/-- The loop of `find_courses`; `none` models a raised exception. -/
def find_courses_loop (q : String) : List Record → List CourseRow → Option (List CourseRow)
  | [], out => some out
  | s :: rest, out => do
    let title ← sec_title s
    let d ← sec_desc s
    if _contains (title ++ "\n" ++ d) q then
      let i ← sec_id s
      let n ← sec_name s
      let dep ← sec_dept s
      let tm ← sec_time_str s
      find_courses_loop q rest (out ++ [⟨i, n, title, dep, sec_level s, tm⟩])
    else find_courses_loop q rest out

/-- `mcp_service.find_courses`: substring search over title+description. -/
def find_courses (records : List Record) (query : String) : Option (List CourseRow) :=
  find_courses_loop (pyStrip query) records []

/-- The loop of `find_sections_by_department`. -/
def find_dept_loop (d : String) : List Record → List DeptRow → Option (List DeptRow)
  | [], out => some out
  | s :: rest, out => do
    let dept ← sec_dept s
    let subj := pyUpper dept
    if subj = d || d.data.isPrefixOf subj.data then
      let i ← sec_id s
      let n ← sec_name s
      let t ← sec_title s
      let tm ← sec_time_str s
      find_dept_loop d rest (out ++ [⟨i, n, t, tm⟩])
    else find_dept_loop d rest out

/-- `mcp_service.find_sections_by_department`: uppercase exact or prefix
match against the department. -/
def find_sections_by_department (records : List Record) (department : String) :
    Option (List DeptRow) :=
  find_dept_loop (pyUpper (pyStrip department)) records []

/-- Leftmost search for the plain pattern `(\d)00` (no boundaries). -/
def searchD00 : List Char → Option Char
  | d :: '0' :: '0' :: rest =>
    if d.isDigit then some d else searchD00 ('0' :: '0' :: rest)
  | _ :: rest => searchD00 rest
  | [] => none

/-- Leftmost search for `(\d)xx` with `re.IGNORECASE`. -/
def searchDxx : List Char → Option Char
  | d :: x1 :: x2 :: rest =>
    if d.isDigit && (x1 = 'x' || x1 = 'X') && (x2 = 'x' || x2 = 'X') then some d
    else searchDxx (x1 :: x2 :: rest)
  | _ :: rest => searchDxx rest
  | [] => none

/-- `re.sub(r"\D", "", level)`: the digit characters of the string. -/
def digitsOf (s : String) : List Char := s.data.filter Char.isDigit

/-- The level canonicalization of `find_sections_by_level`: `(\d)00` or
`(\d)xx`, else the first digit anywhere, else `""`. -/
def parseLevelS (level : String) : String :=
  match searchD00 level.data with
  | some d => String.mk [d] ++ "00"
  | none =>
    match searchDxx level.data with
    | some d => String.mk [d] ++ "00"
    | none =>
      match digitsOf level with
      | [] => ""
      | c :: _ => String.mk [c] ++ "00"

/-- The loop of `find_sections_by_level`. -/
def find_level_loop (lvl : String) : List Record → List ShortRow → Option (List ShortRow)
  | [], out => some out
  | s :: rest, out =>
    if sec_level s = lvl then do
      let i ← sec_id s
      let n ← sec_name s
      let t ← sec_title s
      find_level_loop lvl rest (out ++ [⟨i, n, t⟩])
    else find_level_loop lvl rest out

/-- `mcp_service.find_sections_by_level`. -/
def find_sections_by_level (records : List Record) (level : String) : Option (List ShortRow) :=
  find_level_loop (parseLevelS level) records []

/-- The loop of `find_sections_by_time`. -/
def find_time_loop (b : String) : List Record → List ShortRow → Option (List ShortRow)
  | [], out => some out
  | s :: rest, out => do
    let ts ← sec_time_str s
    if _time_in_bin ts b then
      let i ← sec_id s
      let n ← sec_name s
      let t ← sec_title s
      find_time_loop b rest (out ++ [⟨i, n, t⟩])
    else find_time_loop b rest out

/-- `mcp_service.find_sections_by_time`. -/
def find_sections_by_time (records : List Record) (time_of_day : String) :
    Option (List ShortRow) :=
  find_time_loop (pyLower (pyStrip time_of_day)) records []

/-- Result of `get_section_details`: the raw record (the Python code returns a
JSON round-trip copy, which is the identity on these plain records) or the
explicit not-found value. -/
inductive LookupResult where
  | found (record : Record) : LookupResult
  | notFound (section_id : String) : LookupResult
deriving DecidableEq, Repr

/-- The loop of `get_section_details`: first record whose synthesized id
equals the stripped query id. -/
def get_details_loop (sid : String) : List Record → Option LookupResult
  | [] => some (.notFound sid)
  | s :: rest => do
    let i ← sec_id s
    if i = sid then pure (.found s) else get_details_loop sid rest

/-- `mcp_service.get_section_details`. -/
def get_section_details (records : List Record) (section_id : String) : Option LookupResult :=
  get_details_loop (pyStrip section_id) records

/-- Leftmost search for `(\d)\s*00` (whitespace allowed, as in the combined
filter's level parse). -/
def searchDws00 : List Char → Option Char
  | [] => none
  | d :: rest =>
    if d.isDigit then
      match (rest.dropWhile isPySpace) with
      | '0' :: '0' :: _ => some d
      | _ => searchDws00 rest
    else searchDws00 rest

/-- Leftmost search for `(\d)\s*xx` with `re.IGNORECASE`. -/
def searchDwsxx : List Char → Option Char
  | [] => none
  | d :: rest =>
    if d.isDigit then
      match (rest.dropWhile isPySpace) with
      | x1 :: x2 :: _ =>
        if (x1 = 'x' || x1 = 'X') && (x2 = 'x' || x2 = 'X') then some d else searchDwsxx rest
      | _ => searchDwsxx rest
    else searchDwsxx rest

/-- Leftmost search for `level\s*(\d)` with `re.IGNORECASE`. -/
def searchLevelD : List Char → Option Char
  | [] => none
  | c :: rest =>
    if ((c :: rest).map Char.toLower).take 5 = ['l', 'e', 'v', 'e', 'l'] then
      match ((c :: rest).drop 5).dropWhile isPySpace with
      | d :: _ => if d.isDigit then some d else searchLevelD rest
      | [] => searchLevelD rest
    else searchLevelD rest

/-- The level canonicalization of `find_sections_filtered`: `(\d)\s*00`,
`(\d)\s*xx` or `level\s*(\d)`, else the first digit anywhere, else no
constraint (`none`). -/
def parseLevelC (level : String) : Option String :=
  match searchDws00 level.data with
  | some d => some (String.mk [d] ++ "00")
  | none =>
    match searchDwsxx level.data with
    | some d => some (String.mk [d] ++ "00")
    | none =>
      match searchLevelD level.data with
      | some d => some (String.mk [d] ++ "00")
      | none =>
        match digitsOf level with
        | [] => none
        | c :: _ => some (String.mk [c] ++ "00")

/-- The loop of `find_sections_filtered`.  The argument cues are already
normalized; a `some ""` cue is Python-falsy and imposes no constraint.  The
nesting mirrors the `continue` structure of the source: later predicates (and
their field accesses) are only evaluated when earlier ones pass. -/
def filtered_loop (q dep lvl bucket : Option String) (cap : Nat) :
    List Record → List DetailRow → Option (List DetailRow)
  | [], out => some out
  | s :: rest, out => do
    let title ← sec_title s
    let d ← sec_desc s
    let skipQ :=
      match q with
      | some qs => qs ≠ "" && !(pyIn (pyLower qs) (pyLower (title ++ "\n" ++ d)))
      | none => false
    if skipQ then filtered_loop q dep lvl bucket cap rest out
    else do
      let skipDep ←
        match dep with
        | some dp =>
          if dp = "" then pure false
          else do
            let dept ← sec_dept s
            let subj := pyUpper dept
            pure (!(subj = dp || dp.data.isPrefixOf subj.data))
        | none => pure false
      if skipDep then filtered_loop q dep lvl bucket cap rest out
      else do
        let skipLvl :=
          match lvl with
          | some lv => lv ≠ "" && sec_level s ≠ lv
          | none => false
        if skipLvl then filtered_loop q dep lvl bucket cap rest out
        else do
          let skipTime ←
            match bucket with
            | some b =>
              if b = "" then pure false
              else do
                let ts ← sec_time_str s
                pure (!_time_in_bin ts b)
            | none => pure false
          if skipTime then filtered_loop q dep lvl bucket cap rest out
          else do
            let i ← sec_id s
            let n ← sec_name s
            let dept2 ← sec_dept s
            let tm ← sec_time_str s
            let row : DetailRow :=
              ⟨i, n, title, dept2, sec_level s, tm,
               if d ≠ "" then d.take 220 ++ "…" else ""⟩
            let out2 := out ++ [row]
            if cap ≤ out2.length then some out2
            else filtered_loop q dep lvl bucket cap rest out2

/-- The query cue of the combined filter: `_n(query) if query else None`. -/
def qCue : Option String → Option String
  | none => none
  | some s => if s = "" then none else some (pyStrip s)

/-- The department cue: `_n(department).upper() if department else None`. -/
def depCue : Option String → Option String
  | none => none
  | some s => if s = "" then none else some (pyUpper (pyStrip s))

/-- The level cue: the combined filter's level parse, when a level was given. -/
def lvlCue : Option String → Option String
  | none => none
  | some s => if s = "" then none else parseLevelC s

/-- The time cue: `_n(time_of_day).lower() if time_of_day else None`. -/
def bCue : Option String → Option String
  | none => none
  | some s => if s = "" then none else some (pyLower (pyStrip s))

/-- `mcp_service.find_sections_filtered`: AND of the provided cues, capped at
`max(1, limit)` rows.  `none`/empty arguments are Python-falsy and skipped. -/
def find_sections_filtered (query department level time_of_day : Option String)
    (limit : Int) (records : List Record) : Option (List DetailRow) :=
  filtered_loop (qCue query) (depCue department) (lvlCue level) (bCue time_of_day)
    (max 1 limit).toNat records []

/-! ### Intent resolver (`course_advisor_agent.py`) -/

/-- `course_advisor_agent.SUBJECT_ALIASES`, in source (dict insertion) order. -/
def SUBJECT_ALIASES : List (String × String) :=
  [("cs", "COMPUTER SCIENCE"), ("csci", "COMPUTER SCIENCE"), ("comp sci", "COMPUTER SCIENCE"),
   ("computer science", "COMPUTER SCIENCE"),
   ("engl", "ENGLISH"), ("english", "ENGLISH"),
   ("math", "MATHEMATICS"), ("mathematics", "MATHEMATICS"),
   ("phys", "PHYSICS"), ("physics", "PHYSICS"),
   ("bio", "BIOLOGY"), ("biology", "BIOLOGY"),
   ("chem", "CHEMISTRY"), ("chemistry", "CHEMISTRY"),
   ("phil", "PHILOSOPHY"), ("philosophy", "PHILOSOPHY"),
   ("econ", "ECONOMICS"), ("economics", "ECONOMICS"),
   ("soci", "SOCIOLOGY"), ("sociology", "SOCIOLOGY"),
   ("psych", "PSYCHOLOGY"), ("psychology", "PSYCHOLOGY"),
   ("hist", "HISTORY"), ("history", "HISTORY"),
   ("data", "DATA SCIENCE"), ("data science", "DATA SCIENCE"),
   ("is", "INFORMATION SYSTEMS (INFO)"), ("info", "INFORMATION SYSTEMS (INFO)"),
   ("information systems", "INFORMATION SYSTEMS (INFO)"),
   ("spaud", "SPEECH PATHOLOGY & AUDIOLOGY"),
   ("nursing", "NURSING"),
   ("comm", "COMMUNICATION"), ("communication", "COMMUNICATION"),
   ("pe", "PHYSICAL EDUCATION & RECREATION"), ("kines", "KINESIOLOGY"),
   ("kinesiology", "KINESIOLOGY"),
   ("bus", "BUSINESS"), ("business", "BUSINESS"),
   ("acct", "ACCOUNTING"), ("accounting", "ACCOUNTING"),
   ("stats", "STATISTICS"), ("statistics", "STATISTICS"),
   ("religion", "RELIGION"),
   ("music", "MUSIC"),
   ("studio art", "STUDIO ART"), ("art", "ART"),
   ("art history", "ART HISTORY"),
   ("theatre", "THEATRE"), ("theater", "THEATRE"),
   ("spanish", "SPANISH"), ("german", "GERMAN"), ("french", "FRENCH"), ("dutch", "DUTCH"),
   ("chinese", "CHINESE"), ("korean", "KOREAN"),
   ("geology", "GEOLOGY & GEOGRAPHY"), ("geography", "GEOLOGY & GEOGRAPHY"),
   ("env studies", "ENVIRONMENTAL STUDIES"), ("environmental studies", "ENVIRONMENTAL STUDIES"),
   ("public health", "PUBLIC HEALTH"),
   ("politics", "POLITICS"),
   ("finance", "FINANCE"), ("marketing", "MARKETING"), ("management", "MANAGEMENT"),
   ("supply chain", "SUPPLY CHAIN MANAGEMENT"),
   ("ministry leadership", "MINISTRY LEADERSHIP"),
   ("biochem", "BIOCHEMISTRY"), ("biochemistry", "BIOCHEMISTRY"),
   ("astronomy", "ASTRONOMY"),
   ("calvin core", "CALVIN CORE")]

/-- Stable insertion of a string into a list sorted by decreasing length:
an element goes before the first strictly shorter one, so elements of equal
length keep their original relative order (Python's `sorted` is stable). -/
def insertByLen (x : String) : List String → List String
  | [] => [x]
  | y :: ys => if y.length ≤ x.length then x :: y :: ys else y :: insertByLen x ys

/-- Stable sort by decreasing length, modelling
`sorted(keys, key=len, reverse=True)`. -/
def sortByLenDesc : List String → List String
  | [] => []
  | x :: xs => insertByLen x (sortByLenDesc xs)

/-- The alias keys, longest first. -/
def aliasKeysSorted : List String := sortByLenDesc (SUBJECT_ALIASES.map Prod.fst)

/-- Search for `\b<key>\b` in a text, for a key whose first and last
characters are word characters (true of every alias key).  The Boolean
argument tracks whether the previous character was a word character. -/
def containsWordAux (key : List Char) : Bool → List Char → Bool
  | _, [] => false
  | prev, c :: rest =>
    (!prev && key.isPrefixOf (c :: rest) && boundaryAfter ((c :: rest).drop key.length))
    || containsWordAux key (isWordChar c) rest

/-- `re.search(rf"\b\x7bre.escape(key)\x7d\b", ul)` as a Boolean. -/
def containsWord (key text : String) : Bool := containsWordAux key.data false text.data

/-- `course_advisor_agent._normalize_department`: longest-key-first word-bound
alias scan over the lowercased utterance. -/
def _normalize_department (text : String) : Option String :=
  let ul := pyLower text
  match aliasKeysSorted.find? (fun k => containsWord k ul) with
  | some k => SUBJECT_ALIASES.lookup k
  | none => none

/-- Character class `[A-Za-z&\s]` of the uppercase-run fallback pattern. -/
def upFallbackClass (c : Char) : Bool :=
  ('A' ≤ c && c ≤ 'Z') || ('a' ≤ c && c ≤ 'z') || c = '&' || isPySpace c

/-- A `\b` between a last consumed character and the remaining text: the
word-ness of the two sides must differ (the string end counts as non-word). -/
def boundaryBetween (lc : Char) : List Char → Bool
  | [] => isWordChar lc
  | c :: _ => isWordChar lc != isWordChar c

/-- Greedy-with-backtracking tail of `\b([A-Z][A-Za-z&\s]+)\b`: try the `k+1`
longest extensions of the class run until the trailing `\b` holds. -/
def upTryK (c : Char) (run after : List Char) : Nat → Option (List Char)
  | 0 => none
  | k + 1 =>
    let body := run.take (k + 1)
    match body.getLast? with
    | some lc =>
      if boundaryBetween lc (run.drop (k + 1) ++ after) then some (c :: body)
      else upTryK c run after k
    | none => none

/-- Leftmost search for `\b([A-Z][A-Za-z&\s]+)\b` over the original
utterance. -/
def searchUpItemAux : Bool → List Char → Option (List Char)
  | _, [] => none
  | prev, c :: rest =>
    if !prev && ('A' ≤ c && c ≤ 'Z') then
      let run := rest.takeWhile upFallbackClass
      let after := rest.drop run.length
      match upTryK c run after run.length with
      | some body => some body
      | none => searchUpItemAux (isWordChar c) rest
    else searchUpItemAux (isWordChar c) rest

/-- The uppercase-token fallback of the department detection: the first
`\b([A-Z][A-Za-z&\s]+)\b` match, stripped and uppercased, accepted only if it
is verbatim one of the canonical subject names. -/
def upperFallback (utterance : String) : Option String :=
  match searchUpItemAux false utterance.data with
  | none => none
  | some body =>
    let candidate := pyUpper (pyStrip ⟨body⟩)
    if (SUBJECT_ALIASES.map Prod.snd).contains candidate then some candidate else none

/-- Leftmost search for `\b(1|2|3|4)00\b` over the lowercased utterance. -/
def searchLvl100 : Bool → List Char → Option Char
  | _, [] => none
  | prev, c :: rest =>
    if !prev && ('1' ≤ c && c ≤ '4') then
      match rest with
      | '0' :: '0' :: rest2 =>
        if boundaryAfter rest2 then some c else searchLvl100 (isWordChar c) rest
      | _ => searchLvl100 (isWordChar c) rest
    else searchLvl100 (isWordChar c) rest

/-- Leftmost search for `\b([1-4])\s*xx\b` (case-insensitive; the utterance
is already lowercased, so only `x` occurs). -/
def searchLvlXx : Bool → List Char → Option Char
  | _, [] => none
  | prev, c :: rest =>
    if !prev && ('1' ≤ c && c ≤ '4') then
      match rest.dropWhile isPySpace with
      | 'x' :: 'x' :: rest2 =>
        if boundaryAfter rest2 then some c else searchLvlXx (isWordChar c) rest
      | _ => searchLvlXx (isWordChar c) rest
    else searchLvlXx (isWordChar c) rest

/-- The agent's level detection: `\b(1|2|3|4)00\b` or `\b([1-4])\s*xx\b`,
canonicalized to `"{d}00"` (the source's `m.group(1) + "00"` branch always
applies: both patterns have exactly one group, a digit in `"1234"`). -/
def detectLevel (u : String) : Option String :=
  match searchLvl100 false u.data with
  | some d => some (String.mk [d] ++ "00")
  | none =>
    match searchLvlXx false u.data with
    | some d => some (String.mk [d] ++ "00")
    | none => none

/-- The agent's time-of-day detection: first of the three bucket words that
occurs as a substring of the lowercased utterance. -/
def detectTod (u : String) : Option String :=
  if pyIn "morning" u then some "morning"
  else if pyIn "afternoon" u then some "afternoon"
  else if pyIn "evening" u then some "evening"
  else none

/-- Greedy-with-backtracking match of `\d{2,3}-` (the middle of the id
pattern): three digits and a dash, else two digits and a dash. -/
def p1Digits : List Char → Option (List Char × List Char)
  | a :: b :: c :: d :: rest =>
    if a.isDigit && b.isDigit && c.isDigit && d = '-' then some ([a, b, c], rest)
    else if a.isDigit && b.isDigit && c = '-' then some ([a, b], d :: rest)
    else none
  | [a, b, c] => if a.isDigit && b.isDigit && c = '-' then some ([a, b], []) else none
  | _ => none

/-- Is the character an uppercase letter or digit (`[A-Z0-9]`)? -/
def upperAlnum (c : Char) : Bool := ('A' ≤ c && c ≤ 'Z') || c.isDigit

/-- Greedy-with-backtracking match of `[A-Z0-9]{1,3}\b` at the current
position. -/
def p1Alnum : List Char → Option (List Char)
  | a :: b :: c :: rest =>
    if upperAlnum a && upperAlnum b && upperAlnum c && boundaryAfter rest then some [a, b, c]
    else if upperAlnum a && upperAlnum b && boundaryAfter (c :: rest) then some [a, b]
    else if upperAlnum a && boundaryAfter (b :: c :: rest) then some [a]
    else none
  | [a, b] =>
    if upperAlnum a && upperAlnum b then some [a, b]
    else if upperAlnum a && boundaryAfter [b] then some [a]
    else none
  | [a] => if upperAlnum a then some [a] else none
  | [] => none

/-- Match `\s*\d{2,3}-[A-Z0-9]{1,3}\b` at the current position, returning the
consumed characters (the whitespace belongs to the capture group). -/
def p1AfterLetters (l : List Char) : Option (List Char) := do
  let ws := l.takeWhile isPySpace
  let rest := l.drop ws.length
  let (ds, rest2) ← p1Digits rest
  let al ← p1Alnum rest2
  pure (ws ++ ds ++ ['-'] ++ al)

/-- Greedy-with-backtracking letter prefix of `[A-Z]{2,10}` followed by the
rest of the id pattern: lengths are tried from 10 down to 2. -/
def p1TryLen : Nat → List Char → Option (List Char)
  | 0, _ => none
  | 1, _ => none
  | n + 1, l =>
    let pre := l.take (n + 1)
    if pre.length = n + 1 && pre.all (fun c => 'A' ≤ c && c ≤ 'Z') then
      match p1AfterLetters (l.drop (n + 1)) with
      | some consumed => some (pre ++ consumed)
      | none => p1TryLen n l
    else p1TryLen n l

/-- Leftmost search for `\b([A-Z]{2,10}\s*\d{2,3}-[A-Z0-9]{1,3})\b` over the
original utterance (the leading `\b` holds because the first letter is a word
character preceded by a non-word character or the start). -/
def searchIdPattern : Bool → List Char → Option String
  | _, [] => none
  | prev, c :: rest =>
    if !prev && ('A' ≤ c && c ≤ 'Z') then
      match p1TryLen 10 (c :: rest) with
      | some body => some ⟨body⟩
      | none => searchIdPattern (isWordChar c) rest
    else searchIdPattern (isWordChar c) rest

/-- Leftmost search for `\b(\d{5,})\b` over the lowercased utterance: a
maximal digit run of length at least five with `\b` on both sides (a shorter
greedy backtrack can never restore the trailing `\b`, so only the maximal run
can match). -/
def searchDigitRun : Bool → List Char → Option String
  | _, [] => none
  | prev, c :: rest =>
    if !prev && c.isDigit then
      let run := (c :: rest).takeWhile Char.isDigit
      let after := (c :: rest).drop run.length
      if 5 ≤ run.length && boundaryAfter after then some ⟨run⟩
      else searchDigitRun (isWordChar c) rest
    else searchDigitRun (isWordChar c) rest

/-- The id captured by the details branch of `detect_intent`: the id pattern
over the original utterance, else a bare digit run over the lowercased one. -/
def searchSid (utterance u : String) : Option String :=
  searchIdPattern false utterance.data <|> searchDigitRun false u.data

/-- The topical keywords of the fallback text-search rule. -/
def KEYWORDS : List String :=
  ["ai", "data", "ethics", "security", "writing", "theatre", "music", "history",
   "global", "justice", "psychology", "network", "biology", "chemistry"]

/-- The keyword fallback test: `\b(ai|data|...)\b` over the lowercased
utterance. -/
def keywordHit (u : String) : Bool := KEYWORDS.any (fun k => containsWord k u)

/-- The structured result of `detect_intent`: which tool is called, with
which arguments. -/
inductive Intent where
  | noTool : Intent
  | get_details (section_id : String) : Intent
  | filtered (department level time_of_day : Option String) (limit : Nat) : Intent
  | courses (query : String) : Intent
deriving DecidableEq, Repr

/-- The tail of `detect_intent` after the details branch: combined filter if
any cue was found, else keyword text search, else no tool. -/
def detectRest (utterance : String) (dep lvl tod : Option String) : Intent :=
  if dep.isSome || lvl.isSome || tod.isSome then .filtered dep lvl tod 20
  else if keywordHit (pyLower utterance) then .courses utterance
  else .noTool

/-- `course_advisor_agent.detect_intent`.  The department/level/time cues are
computed first (they have no side effects); the details branch then returns
before they are consulted, exactly as the early `return` in the source. -/
def detect_intent (utterance : String) : Intent :=
  let u := pyLower utterance
  let dep : Option String :=
    match _normalize_department utterance with
    | some d => some d
    | none => upperFallback utterance
  let lvl := detectLevel u
  let tod := detectTod u
  if pyIn "details" u || pyIn "tell me more" u || pyIn "id " u then
    match searchSid utterance u with
    | some sid => .get_details (pyStrip sid)
    | none => detectRest utterance dep lvl tod
  else detectRest utterance dep lvl tod

/-! ### Lemmas: stripping -/

theorem str_ext {a b : String} (h : a.data = b.data) : a = b := by
  cases a; cases b; exact congrArg String.mk h

theorem data_append (a b : String) : (a ++ b).data = a.data ++ b.data := rfl

theorem strip_data (s : String) : (pyStrip s).data = pyStripL s.data := rfl

theorem data_ne_nil {s : String} (h : s ≠ "") : s.data ≠ [] := by
  intro hnil
  exact h (str_ext hnil)

theorem dropTrail_eq_rdropWhile (p : Char → Bool) (l : List Char) :
    dropTrail p l = l.rdropWhile p := rfl

theorem pyStripL_head?_not (l : List Char) :
    ∀ c, (pyStripL l).head? = some c → isPySpace c = false := by
  intro c hc
  have hpre : pyStripL l <+: l.dropWhile isPySpace := by
    rw [pyStripL, dropTrail_eq_rdropWhile]
    exact List.rdropWhile_prefix _ _
  obtain ⟨t, ht⟩ := hpre
  have hx : (l.dropWhile isPySpace).head? = some c := by
    rw [← ht]
    simp [List.head?_append, hc]
  have hmain := List.head?_dropWhile_not isPySpace l
  rw [hx] at hmain
  exact hmain

theorem pyStripL_getLast?_not (l : List Char) :
    ∀ c, (pyStripL l).getLast? = some c → isPySpace c = false := by
  intro c hc
  rw [pyStripL, dropTrail_eq_rdropWhile, List.rdropWhile, List.getLast?_reverse] at hc
  have hmain := List.head?_dropWhile_not isPySpace (l.dropWhile isPySpace).reverse
  rw [hc] at hmain
  exact hmain

theorem pyStripL_eq_self (l : List Char)
    (h1 : ∀ c, l.head? = some c → isPySpace c = false)
    (h2 : ∀ c, l.getLast? = some c → isPySpace c = false) :
    pyStripL l = l := by
  have hd : l.dropWhile isPySpace = l := by
    cases l with
    | nil => rfl
    | cons a t =>
      have ha := h1 a rfl
      simp [List.dropWhile_cons, ha]
  rw [pyStripL, hd, dropTrail_eq_rdropWhile, List.rdropWhile_eq_self_iff]
  intro hl
  have hsome := List.getLast?_eq_getLast l hl
  have := h2 _ hsome
  simp [this]

theorem pyStripL_idem (l : List Char) : pyStripL (pyStripL l) = pyStripL l :=
  pyStripL_eq_self _ (pyStripL_head?_not l) (pyStripL_getLast?_not l)

theorem pyStrip_eq_self {s : String}
    (h1 : ∀ c, s.data.head? = some c → isPySpace c = false)
    (h2 : ∀ c, s.data.getLast? = some c → isPySpace c = false) :
    pyStrip s = s :=
  str_ext (by rw [strip_data]; exact pyStripL_eq_self _ h1 h2)

theorem pyStrip_idem (s : String) : pyStrip (pyStrip s) = pyStrip s :=
  str_ext (by rw [strip_data, strip_data]; exact pyStripL_idem _)

theorem fixed_head_not {s : String} (hf : pyStrip s = s) :
    ∀ c, s.data.head? = some c → isPySpace c = false := by
  intro c hc
  have hdata : pyStripL s.data = s.data := by
    conv_rhs => rw [← hf, strip_data]
  exact pyStripL_head?_not s.data c (by rw [hdata]; exact hc)

theorem fixed_getLast_not {s : String} (hf : pyStrip s = s) :
    ∀ c, s.data.getLast? = some c → isPySpace c = false := by
  intro c hc
  have hdata : pyStripL s.data = s.data := by
    conv_rhs => rw [← hf, strip_data]
  exact pyStripL_getLast?_not s.data c (by rw [hdata]; exact hc)

/-! ### Lemmas: the normalizer under well-formed values -/

theorem _norm_fixed {v : PyVal} {s : String} (h : _norm v = some s) : pyStrip s = s := by
  unfold _norm at h
  cases hv : pyOr v (.str "") with
  | null => rw [hv] at h; exact absurd h (by simp)
  | int n => rw [hv] at h; exact absurd h (by simp)
  | str s0 =>
    rw [hv] at h
    have hs : s = pyStrip s0 := by simpa using h.symm
    rw [hs]
    exact pyStrip_idem s0

theorem _normStr_fixed (v : PyVal) : pyStrip (_normStr v) = _normStr v := by
  unfold _normStr
  exact pyStrip_idem _

theorem isStrOrNull_pyOr {a b : PyVal} (ha : a.isStrOrNull = true)
    (hb : b.isStrOrNull = true) : (pyOr a b).isStrOrNull = true := by
  unfold pyOr
  split <;> assumption

theorem _norm_isSome {v : PyVal} (h : v.isStrOrNull = true) : (_norm v).isSome = true := by
  cases v with
  | null => rfl
  | int n => simp [PyVal.isStrOrNull] at h
  | str s =>
    cases hv : pyOr (.str s) (.str "") with
    | null => exact absurd hv (by unfold pyOr; split <;> simp)
    | int n => exact absurd hv (by unfold pyOr; split <;> simp)
    | str s0 =>
      unfold _norm
      rw [hv]
      rfl

theorem opt_eq_some_getD {α : Type} {o : Option α} (d : α) (h : o.isSome = true) :
    o = some (o.getD d) := by
  cases o with
  | none => simp at h
  | some a => rfl

/-- The seventeen field conditions packed in `Record.wf`, unpacked. -/
theorem wf_fields {r : Record} (h : r.wf = true) :
    r.Subject.isStrOrNull = true ∧ r.Crs_Number.isStrOrNull = true ∧
    r.Sec_Number.isStrOrNull = true ∧ r.Section_Name.isStrOrNull = true ∧
    r.Section_Title.isStrOrNull = true ∧ r.Period_RefID.isStrOrNull = true ∧
    r.AcadLevel.isStrOrNull = true ∧ r.MtgPattern.isStrOrNull = true ∧
    r.StartDt.isStrOrNull = true ∧ r.EndDt.isStrOrNull = true ∧
    r.Desc.isStrOrNull = true ∧ r.CourseTitle.isStrOrNull = true ∧
    r.course_title.isStrOrNull = true ∧ r.CourseDescription.isStrOrNull = true ∧
    r.description.isStrOrNull = true ∧ r.Department.isStrOrNull = true ∧
    r.department.isStrOrNull = true := by
  unfold Record.wf at h
  simp only [Bool.and_eq_true] at h
  tauto

theorem sec_title_wf {r : Record} (h : r.wf = true) : sec_title r = some (sec_titleD r) := by
  obtain ⟨-, -, -, -, h5, -, -, -, -, -, -, h12, h13, -⟩ := wf_fields h
  exact opt_eq_some_getD ""
    (_norm_isSome (isStrOrNull_pyOr h5 (isStrOrNull_pyOr h12 (isStrOrNull_pyOr h13 rfl))))

theorem sec_desc_wf {r : Record} (h : r.wf = true) : sec_desc r = some (sec_descD r) := by
  obtain ⟨-, -, -, -, -, -, -, -, -, -, h11, -, -, h14, h15, -, -⟩ := wf_fields h
  exact opt_eq_some_getD ""
    (_norm_isSome (isStrOrNull_pyOr h11 (isStrOrNull_pyOr h14 (isStrOrNull_pyOr h15 rfl))))

theorem sec_dept_wf {r : Record} (h : r.wf = true) : sec_dept r = some (sec_deptD r) := by
  obtain ⟨h1, -, -, -, -, -, -, -, -, -, -, -, -, -, -, h16, h17⟩ := wf_fields h
  exact opt_eq_some_getD ""
    (_norm_isSome (isStrOrNull_pyOr h1 (isStrOrNull_pyOr h16 (isStrOrNull_pyOr h17 rfl))))

theorem sec_raw_id_wf {r : Record} (h : r.wf = true) :
    sec_raw_id r = some ((sec_raw_id r).getD "") := by
  obtain ⟨h1, -, -, h4, h5, h6, -⟩ := wf_fields h
  apply opt_eq_some_getD
  obtain ⟨a, ha⟩ := Option.isSome_iff_exists.mp (_norm_isSome h1)
  obtain ⟨b, hb⟩ := Option.isSome_iff_exists.mp (_norm_isSome h4)
  obtain ⟨c, hc⟩ := Option.isSome_iff_exists.mp (_norm_isSome h5)
  obtain ⟨d, hd⟩ := Option.isSome_iff_exists.mp (_norm_isSome h6)
  unfold sec_raw_id
  rw [ha, hb, hc, hd]
  simp only [Option.pure_def, Option.bind_eq_bind, Option.some_bind]
  split
  · rfl
  split
  · rfl
  · rfl

theorem sec_id_wf {r : Record} (h : r.wf = true) : sec_id r = some (sec_idD r) :=
  sec_raw_id_wf h

theorem sec_name_wf {r : Record} (h : r.wf = true) : sec_name r = some (sec_nameD r) := by
  obtain ⟨h1, -, -, h4, -⟩ := wf_fields h
  apply opt_eq_some_getD
  obtain ⟨a, ha⟩ := Option.isSome_iff_exists.mp (_norm_isSome h1)
  obtain ⟨b, hb⟩ := Option.isSome_iff_exists.mp (_norm_isSome h4)
  unfold sec_name
  rw [ha, hb]
  simp only [Option.pure_def, Option.bind_eq_bind, Option.some_bind]
  split
  · rfl
  · rfl

theorem sec_time_wf {r : Record} (h : r.wf = true) :
    sec_time_str r = some (sec_timeD r) := by
  obtain ⟨-, -, -, -, -, -, -, h8, h9, h10, -⟩ := wf_fields h
  apply opt_eq_some_getD
  obtain ⟨a, ha⟩ := Option.isSome_iff_exists.mp (_norm_isSome h8)
  obtain ⟨b, hb⟩ := Option.isSome_iff_exists.mp (_norm_isSome h9)
  obtain ⟨c, hc⟩ := Option.isSome_iff_exists.mp (_norm_isSome h10)
  unfold sec_time_str
  rw [ha, hb, hc]
  simp only [Option.pure_def, Option.bind_eq_bind, Option.some_bind]
  split
  · rfl
  · rfl

/-! ### Lemmas: the synthesized id is strip-invariant -/

theorem head?_append_left {a : List Char} (b : List Char) (h : a ≠ []) :
    (a ++ b).head? = a.head? := by
  cases a with
  | nil => exact absurd rfl h
  | cons x xs => rfl

theorem getLast?_append_right (a : List Char) {b : List Char} (h : b ≠ []) :
    (a ++ b).getLast? = b.getLast? := by
  rw [List.getLast?_append]
  cases hb : b.getLast? with
  | none => exact absurd (List.getLast?_eq_none_iff.mp hb) h
  | some c => rfl

theorem head?_chain4 {a : List Char} (b c d e : List Char) (h : a ≠ []) :
    ((((a ++ b) ++ c) ++ d) ++ e).head? = a.head? := by
  have h1 : a ++ b ≠ [] := fun hh => h (List.append_eq_nil.mp hh).1
  have h2 : (a ++ b) ++ c ≠ [] := fun hh => h1 (List.append_eq_nil.mp hh).1
  have h3 : ((a ++ b) ++ c) ++ d ≠ [] := fun hh => h2 (List.append_eq_nil.mp hh).1
  rw [head?_append_left _ h3, head?_append_left _ h2, head?_append_left _ h1,
    head?_append_left _ h]

/-- Branch 1 of `sec_raw_id` yields a strip-invariant string: it starts with a
non-blank character of `subj` and ends with a non-blank character of `sec`. -/
theorem strip_fixed_branch1 {subj sec : String} (num : String)
    (hs : pyStrip subj = subj) (hc : pyStrip sec = sec)
    (hns : subj ≠ "") (hnc : sec ≠ "") :
    pyStrip (subj ++ " " ++ num ++ "-" ++ sec) = subj ++ " " ++ num ++ "-" ++ sec := by
  apply pyStrip_eq_self <;> intro c hcc
  · rw [show (subj ++ " " ++ num ++ "-" ++ sec).data
        = (((subj.data ++ " ".data) ++ num.data) ++ "-".data) ++ sec.data from rfl,
      head?_chain4 _ _ _ _ (data_ne_nil hns)] at hcc
    exact fixed_head_not hs c hcc
  · rw [show (subj ++ " " ++ num ++ "-" ++ sec).data
        = (((subj.data ++ " ".data) ++ num.data) ++ "-".data) ++ sec.data from rfl,
      getLast?_append_right _ (data_ne_nil hnc)] at hcc
    exact fixed_getLast_not hc c hcc

/-- Branch 3 of `sec_raw_id` yields a strip-invariant string: the bar protects
whichever side is empty. -/
theorem strip_fixed_branch3 {t p : String} (ht : pyStrip t = t) (hp : pyStrip p = p) :
    pyStrip (t ++ "|" ++ p) = t ++ "|" ++ p := by
  apply pyStrip_eq_self <;> intro c hcc
  · rw [show (t ++ "|" ++ p).data = (t.data ++ ['|']) ++ p.data from rfl,
      head?_append_left _ (by simp)] at hcc
    cases hT : t.data with
    | nil =>
      rw [hT] at hcc
      simp only [List.nil_append, List.head?_cons, Option.some.injEq] at hcc
      rw [← hcc]
      rfl
    | cons x xs =>
      rw [hT] at hcc
      rw [head?_append_left _ (by simp)] at hcc
      rw [← hT] at hcc
      exact fixed_head_not ht c hcc
  · rw [show (t ++ "|" ++ p).data = (t.data ++ ['|']) ++ p.data from rfl] at hcc
    cases hP : p.data with
    | nil =>
      rw [hP, List.append_nil, List.getLast?_concat] at hcc
      have hcb : c = '|' := by
        have := (Option.some.injEq _ _).mp hcc
        exact this.symm
      rw [hcb]
      rfl
    | cons x xs =>
      rw [hP] at hcc
      rw [getLast?_append_right _ (by simp)] at hcc
      rw [← hP] at hcc
      exact fixed_getLast_not hp c hcc

/-- Every id produced by `sec_raw_id` is unchanged by `_norm`'s strip. -/
theorem sec_raw_id_fixed {r : Record} {sid : String} (h : sec_raw_id r = some sid) :
    pyStrip sid = sid := by
  unfold sec_raw_id at h
  cases h1 : _norm r.Subject with
  | none => rw [h1] at h; exact absurd h (by simp)
  | some subj =>
  rw [h1] at h
  cases h2 : _norm r.Section_Name with
  | none => rw [h2] at h; exact absurd h (by simp)
  | some name =>
  rw [h2] at h
  simp only [Option.pure_def, Option.bind_eq_bind, Option.some_bind] at h
  split at h
  · rename_i hcond
    obtain ⟨hs, hn, hc⟩ := hcond
    obtain rfl := (Option.some.injEq _ _).mp h
    exact strip_fixed_branch1 _ (_norm_fixed h1) (_normStr_fixed _) hs hc
  split at h
  · rename_i hname
    obtain rfl := (Option.some.injEq _ _).mp h
    exact _norm_fixed h2
  · cases h3 : _norm r.Section_Title with
    | none => rw [h3] at h; exact absurd h (by simp)
    | some t =>
    rw [h3] at h
    cases h4 : _norm r.Period_RefID with
    | none => rw [h4] at h; exact absurd h (by simp)
    | some p =>
    rw [h4] at h
    simp only [Option.some_bind] at h
    obtain rfl := (Option.some.injEq _ _).mp h
    exact strip_fixed_branch3 (_norm_fixed h3) (_norm_fixed h4)

/-! ### Lemmas: id lookup -/

theorem get_details_loop_mem (records : List Record) (r : Record) (sid : String)
    (hwf : ∀ s ∈ records, s.wf = true) (hr : r ∈ records) (hid : sec_id r = some sid) :
    ∃ s, get_details_loop sid records = some (.found s) ∧ s ∈ records ∧
      sec_id s = some sid := by
  induction records with
  | nil => cases hr
  | cons a rest ih =>
    have ha := sec_id_wf (hwf a (by simp))
    by_cases he : sec_idD a = sid
    · refine ⟨a, ?_, by simp, by rw [ha, he]⟩
      simp [get_details_loop, ha, he]
    · have hr' : r ∈ rest := by
        cases List.mem_cons.mp hr with
        | inl hh =>
          exfalso
          apply he
          rw [hh] at hid
          rw [hid] at ha
          exact ((Option.some.injEq _ _).mp ha).symm
        | inr hh => exact hh
      obtain ⟨s, hs1, hs2, hs3⟩ := ih (fun x hx => hwf x (by simp [hx])) hr'
      refine ⟨s, ?_, by simp [hs2], hs3⟩
      simp [get_details_loop, ha, he, hs1]

theorem get_details_loop_first (pre post : List Record) (r : Record) (sid : String)
    (hwf : ∀ s ∈ pre, s.wf = true) (hid : sec_id r = some sid)
    (hmiss : ∀ s ∈ pre, sec_id s ≠ some sid) :
    get_details_loop sid (pre ++ r :: post) = some (.found r) := by
  induction pre with
  | nil => simp [get_details_loop, hid]
  | cons a rest ih =>
    have ha := sec_id_wf (hwf a (by simp))
    have hne : sec_idD a ≠ sid := by
      intro he
      exact hmiss a (by simp) (by rw [ha, he])
    simp only [List.cons_append, get_details_loop, ha, Option.pure_def,
      Option.bind_eq_bind, Option.some_bind]
    rw [if_neg hne]
    exact ih (fun x hx => hwf x (by simp [hx])) (fun x hx => hmiss x (by simp [hx]))

/-! ### Lemmas: row builders and match predicates under well-formedness -/

/-- The preview actually produced by `find_sections_filtered`: ellipsis
whenever the description is non-empty. -/
def previewOf (r : Record) : String :=
  if sec_descD r ≠ "" then (sec_descD r).take 220 ++ "…" else ""

/-- Row of `find_courses` for a well-formed record. -/
def courseRowOf (r : Record) : CourseRow :=
  ⟨sec_idD r, sec_nameD r, sec_titleD r, sec_deptD r, sec_level r, sec_timeD r⟩

/-- Row of `find_sections_by_department` for a well-formed record. -/
def deptRowOf (r : Record) : DeptRow := ⟨sec_idD r, sec_nameD r, sec_titleD r, sec_timeD r⟩

/-- Row of `find_sections_by_level` / `find_sections_by_time`. -/
def shortRowOf (r : Record) : ShortRow := ⟨sec_idD r, sec_nameD r, sec_titleD r⟩

/-- Row of `find_sections_filtered` for a well-formed record. -/
def detailRowOf (r : Record) : DetailRow :=
  ⟨sec_idD r, sec_nameD r, sec_titleD r, sec_deptD r, sec_level r, sec_timeD r, previewOf r⟩

/-- The text predicate of `find_courses` (and of the combined filter). -/
def matchesText (q : String) (r : Record) : Bool :=
  _contains (sec_titleD r ++ "\n" ++ sec_descD r) q

/-- The department predicate (exact or prefix on the uppercased subject). -/
def matchesDept (d : String) (r : Record) : Bool :=
  pyUpper (sec_deptD r) = d || d.data.isPrefixOf (pyUpper (sec_deptD r)).data

/-- The level predicate. -/
def matchesLevel (lvl : String) (r : Record) : Bool := sec_level r = lvl

/-- The time-bucket predicate. -/
def matchesTime (b : String) (r : Record) : Bool := _time_in_bin (sec_timeD r) b

theorem find_courses_loop_eq (q : String) (records : List Record)
    (hwf : ∀ r ∈ records, r.wf = true) :
    ∀ out, find_courses_loop q records out =
      some (out ++ (records.filter (matchesText q)).map courseRowOf) := by
  induction records with
  | nil => intro out; simp [find_courses_loop]
  | cons s rest ih =>
    intro out
    have h1 := sec_title_wf (hwf s (by simp))
    have h2 := sec_desc_wf (hwf s (by simp))
    have h3 := sec_id_wf (hwf s (by simp))
    have h4 := sec_name_wf (hwf s (by simp))
    have h5 := sec_dept_wf (hwf s (by simp))
    have h6 := sec_time_wf (hwf s (by simp))
    have ih' := ih (fun x hx => hwf x (by simp [hx]))
    simp only [find_courses_loop, h1, h2, h3, h4, h5, h6, Option.pure_def,
      Option.bind_eq_bind, Option.some_bind]
    by_cases hm : _contains (sec_titleD s ++ "\n" ++ sec_descD s) q = true
    · rw [if_pos hm, ih']
      have hm2 : matchesText q s = true := hm
      simp [List.filter_cons, hm2, courseRowOf, List.append_assoc]
    · rw [if_neg hm, ih']
      have hm2 : matchesText q s = false := by
        have : ¬ matchesText q s = true := hm
        simpa using this
      simp [List.filter_cons, hm2]

theorem find_dept_loop_eq (d : String) (records : List Record)
    (hwf : ∀ r ∈ records, r.wf = true) :
    ∀ out, find_dept_loop d records out =
      some (out ++ (records.filter (matchesDept d)).map deptRowOf) := by
  induction records with
  | nil => intro out; simp [find_dept_loop]
  | cons s rest ih =>
    intro out
    have h1 := sec_title_wf (hwf s (by simp))
    have h3 := sec_id_wf (hwf s (by simp))
    have h4 := sec_name_wf (hwf s (by simp))
    have h5 := sec_dept_wf (hwf s (by simp))
    have h6 := sec_time_wf (hwf s (by simp))
    have ih' := ih (fun x hx => hwf x (by simp [hx]))
    simp only [find_dept_loop, h1, h3, h4, h5, h6, Option.pure_def,
      Option.bind_eq_bind, Option.some_bind]
    by_cases hm :
        (pyUpper (sec_deptD s) = d || d.data.isPrefixOf (pyUpper (sec_deptD s)).data) = true
    · rw [if_pos hm, ih']
      have hm2 : matchesDept d s = true := hm
      simp [List.filter_cons, hm2, deptRowOf, List.append_assoc]
    · rw [if_neg hm, ih']
      have hm2 : matchesDept d s = false := by
        have : ¬ matchesDept d s = true := hm
        simpa using this
      simp [List.filter_cons, hm2]

theorem find_level_loop_eq (lvl : String) (records : List Record)
    (hwf : ∀ r ∈ records, r.wf = true) :
    ∀ out, find_level_loop lvl records out =
      some (out ++ (records.filter (matchesLevel lvl)).map shortRowOf) := by
  induction records with
  | nil => intro out; simp [find_level_loop]
  | cons s rest ih =>
    intro out
    have h1 := sec_title_wf (hwf s (by simp))
    have h3 := sec_id_wf (hwf s (by simp))
    have h4 := sec_name_wf (hwf s (by simp))
    have ih' := ih (fun x hx => hwf x (by simp [hx]))
    simp only [find_level_loop, h1, h3, h4, Option.pure_def,
      Option.bind_eq_bind, Option.some_bind]
    by_cases hm : sec_level s = lvl
    · rw [if_pos hm, ih']
      have hm2 : matchesLevel lvl s = true := by simp [matchesLevel, hm]
      simp [List.filter_cons, hm2, shortRowOf, List.append_assoc]
    · rw [if_neg hm, ih']
      have hm2 : matchesLevel lvl s = false := by simp [matchesLevel, hm]
      simp [List.filter_cons, hm2]

theorem find_time_loop_eq (b : String) (records : List Record)
    (hwf : ∀ r ∈ records, r.wf = true) :
    ∀ out, find_time_loop b records out =
      some (out ++ (records.filter (matchesTime b)).map shortRowOf) := by
  induction records with
  | nil => intro out; simp [find_time_loop]
  | cons s rest ih =>
    intro out
    have h1 := sec_title_wf (hwf s (by simp))
    have h3 := sec_id_wf (hwf s (by simp))
    have h4 := sec_name_wf (hwf s (by simp))
    have h6 := sec_time_wf (hwf s (by simp))
    have ih' := ih (fun x hx => hwf x (by simp [hx]))
    simp only [find_time_loop, h1, h3, h4, h6, Option.pure_def,
      Option.bind_eq_bind, Option.some_bind]
    by_cases hm : _time_in_bin (sec_timeD s) b = true
    · rw [if_pos hm, ih']
      have hm2 : matchesTime b s = true := hm
      simp [List.filter_cons, hm2, shortRowOf, List.append_assoc]
    · rw [if_neg hm, ih']
      have hm2 : matchesTime b s = false := by
        have : ¬ matchesTime b s = true := hm
        simpa using this
      simp [List.filter_cons, hm2]

/-! ### Lemmas: the combined filter -/

/-- The query-skip condition of the combined filter's loop, as a function. -/
def skipQof (q : Option String) (r : Record) : Bool :=
  match q with
  | some qs => qs ≠ "" && !(pyIn (pyLower qs) (pyLower (sec_titleD r ++ "\n" ++ sec_descD r)))
  | none => false

/-- The department-skip condition of the combined filter's loop. -/
def skipDof (dep : Option String) (r : Record) : Bool :=
  match dep with
  | some dp =>
    if dp = "" then false
    else !(pyUpper (sec_deptD r) = dp || dp.data.isPrefixOf (pyUpper (sec_deptD r)).data)
  | none => false

/-- The level-skip condition of the combined filter's loop. -/
def skipLof (lvl : Option String) (r : Record) : Bool :=
  match lvl with
  | some lv => lv ≠ "" && sec_level r ≠ lv
  | none => false

/-- The time-skip condition of the combined filter's loop. -/
def skipTof (bucket : Option String) (r : Record) : Bool :=
  match bucket with
  | some b => if b = "" then false else !_time_in_bin (sec_timeD r) b
  | none => false

/-- A record survives all four cues of the combined filter. -/
def cPred (q dep lvl bucket : Option String) (r : Record) : Bool :=
  !skipQof q r && !skipDof dep r && !skipLof lvl r && !skipTof bucket r

theorem skipQof_def (q : Option String) (r : Record) :
    skipQof q r =
      match q with
      | some qs =>
        qs ≠ "" && !(pyIn (pyLower qs) (pyLower (sec_titleD r ++ "\n" ++ sec_descD r)))
      | none => false := rfl

theorem skipLof_def (lvl : Option String) (r : Record) :
    skipLof lvl r =
      match lvl with
      | some lv => lv ≠ "" && sec_level r ≠ lv
      | none => false := rfl

theorem tail_lemma (lvl bucket : Option String) (r : Record)
    (L F : Option (List DetailRow)) :
    (if skipLof lvl r = true then L
     else
       match bucket with
       | some b =>
         if b = "" then (if false = true then L else F)
         else if (!_time_in_bin (sec_timeD r) b) = true then L else F
       | none => (if false = true then L else F))
    = if (skipLof lvl r || skipTof bucket r) = true then L else F := by
  cases hC : skipLof lvl r with
  | true => simp
  | false =>
    rcases bucket with _ | b
    · simp [skipTof]
    · dsimp only
      by_cases hb : b = ""
      · simp [skipTof, hb]
      · cases hD : _time_in_bin (sec_timeD r) b <;> simp [skipTof, hb, hD]

theorem dep_lemma (dep : Option String) (r : Record) (L T : Option (List DetailRow)) :
    (match dep with
     | some dp =>
       if dp = "" then (if false = true then L else T)
       else
         if (!(pyUpper (sec_deptD r) = dp ||
              dp.data.isPrefixOf (pyUpper (sec_deptD r)).data)) = true then L else T
     | none => (if false = true then L else T))
    = if skipDof dep r = true then L else T := by
  rcases dep with _ | dp
  · simp [skipDof]
  · dsimp only
    by_cases hdp : dp = ""
    · simp [skipDof, hdp]
    · cases hB : (pyUpper (sec_deptD r) = dp ||
          dp.data.isPrefixOf (pyUpper (sec_deptD r)).data : Bool) <;>
        simp [skipDof, hdp, hB]

theorem filtered_loop_cons (q dep lvl bucket : Option String) (cap : Nat)
    (s : Record) (rest : List Record) (out : List DetailRow) (hs : s.wf = true) :
    filtered_loop q dep lvl bucket cap (s :: rest) out =
      if cPred q dep lvl bucket s = true then
        if cap ≤ (out ++ [detailRowOf s]).length then some (out ++ [detailRowOf s])
        else filtered_loop q dep lvl bucket cap rest (out ++ [detailRowOf s])
      else filtered_loop q dep lvl bucket cap rest out := by
  have h1 := sec_title_wf hs
  have h2 := sec_desc_wf hs
  have h3 := sec_id_wf hs
  have h4 := sec_name_wf hs
  have h5 := sec_dept_wf hs
  have h6 := sec_time_wf hs
  simp only [filtered_loop, h1, h2, h3, h4, h5, h6, Option.pure_def, Option.bind_eq_bind,
    Option.some_bind]
  rw [← skipQof_def q s, ← skipLof_def lvl s]
  rw [tail_lemma lvl bucket s _ _]
  rw [dep_lemma dep s _ _]
  simp only [detailRowOf, previewOf]
  cases hA : skipQof q s <;> cases hB : skipDof dep s <;> cases hC : skipLof lvl s <;>
    cases hD : skipTof bucket s <;> simp [cPred, hA, hB, hC, hD]

theorem filtered_loop_eq (q dep lvl bucket : Option String) (cap : Nat)
    (records : List Record) (hwf : ∀ r ∈ records, r.wf = true) :
    ∀ out : List DetailRow, out.length < cap →
      filtered_loop q dep lvl bucket cap records out =
        some (out ++ (((records.filter (cPred q dep lvl bucket)).map detailRowOf).take
          (cap - out.length))) := by
  induction records with
  | nil => intro out hout; simp [filtered_loop]
  | cons s rest ih =>
    intro out hout
    have ih' := ih (fun x hx => hwf x (by simp [hx]))
    rw [filtered_loop_cons q dep lvl bucket cap s rest out (hwf s (by simp))]
    cases hc : cPred q dep lvl bucket s with
    | false =>
      rw [ih' out hout]
      simp [List.filter_cons, hc]
    | true =>
      have hlen1 : (out ++ [detailRowOf s]).length = out.length + 1 := by simp
      by_cases hcap : cap ≤ (out ++ [detailRowOf s]).length
      · rw [if_pos hcap]
        have hone : cap - out.length = 1 := by
          rw [hlen1] at hcap
          omega
        simp [List.filter_cons, hc, hone, List.append_assoc]
      · rw [if_neg hcap]
        have hlt : (out ++ [detailRowOf s]).length < cap := by omega
        rw [ih' _ hlt]
        have harith : cap - out.length = (cap - (out.length + 1)) + 1 := by
          rw [hlen1] at hcap
          omega
        rw [hlen1]
        simp [List.filter_cons, hc, harith, List.take_succ_cons, List.append_assoc]

/-! ### Lemmas: capability characterizations -/

theorem find_courses_eq (records : List Record) (query : String)
    (hwf : ∀ r ∈ records, r.wf = true) :
    find_courses records query =
      some ((records.filter (matchesText (pyStrip query))).map courseRowOf) := by
  unfold find_courses
  rw [find_courses_loop_eq _ _ hwf []]
  simp

theorem find_dept_eq (records : List Record) (department : String)
    (hwf : ∀ r ∈ records, r.wf = true) :
    find_sections_by_department records department =
      some ((records.filter (matchesDept (pyUpper (pyStrip department)))).map deptRowOf) := by
  unfold find_sections_by_department
  rw [find_dept_loop_eq _ _ hwf []]
  simp

theorem find_level_eq (records : List Record) (level : String)
    (hwf : ∀ r ∈ records, r.wf = true) :
    find_sections_by_level records level =
      some ((records.filter (matchesLevel (parseLevelS level))).map shortRowOf) := by
  unfold find_sections_by_level
  rw [find_level_loop_eq _ _ hwf []]
  simp

theorem find_time_eq (records : List Record) (time_of_day : String)
    (hwf : ∀ r ∈ records, r.wf = true) :
    find_sections_by_time records time_of_day =
      some ((records.filter (matchesTime (pyLower (pyStrip time_of_day)))).map shortRowOf) := by
  unfold find_sections_by_time
  rw [find_time_loop_eq _ _ hwf []]
  simp

theorem cap_pos (limit : Int) : 0 < (max 1 limit).toNat := by
  have h1 : (1 : Int) ≤ max 1 limit := le_max_left _ _
  omega

theorem find_sections_filtered_eq (query department level time_of_day : Option String)
    (limit : Int) (records : List Record) (hwf : ∀ r ∈ records, r.wf = true) :
    find_sections_filtered query department level time_of_day limit records =
      some (((records.filter
        (cPred (qCue query) (depCue department) (lvlCue level) (bCue time_of_day))).map
          detailRowOf).take (max 1 limit).toNat) := by
  unfold find_sections_filtered
  rw [filtered_loop_eq _ _ _ _ _ _ hwf []
    (by simp only [List.length_nil]; exact cap_pos limit)]
  simp

/-! ### Lemmas: from combined-filter cues to single-capability predicates -/

theorem pyInL_nil (l : List Char) : pyInL [] l = true := by
  cases l <;> simp [pyInL, List.isPrefixOf]

theorem matchesText_empty (r : Record) : matchesText "" r = true := by
  unfold matchesText _contains pyIn
  rw [show (pyLower "").data = [] from rfl]
  exact pyInL_nil _

theorem matchesDept_empty (r : Record) : matchesDept "" r = true := by
  unfold matchesDept
  rw [show ("" : String).data = [] from rfl]
  simp [List.isPrefixOf]

theorem matchesText_of_cue {qs : String} {r : Record}
    (h : skipQof (qCue (some qs)) r = false) : matchesText (pyStrip qs) r = true := by
  by_cases hq : qs = ""
  · rw [hq]
    exact matchesText_empty r
  · rw [qCue, if_neg hq] at h
    by_cases hq2 : pyStrip qs = ""
    · rw [hq2]
      exact matchesText_empty r
    · unfold skipQof at h
      simp only [Bool.and_eq_false_iff] at h
      cases h with
      | inl h => exact absurd (by simpa using h) hq2
      | inr h =>
        unfold matchesText _contains
        simpa using h

theorem matchesDept_of_cue {dp : String} {r : Record}
    (h : skipDof (depCue (some dp)) r = false) :
    matchesDept (pyUpper (pyStrip dp)) r = true := by
  by_cases hd : dp = ""
  · rw [hd]
    rw [show pyUpper (pyStrip "") = "" from rfl]
    exact matchesDept_empty r
  · rw [depCue, if_neg hd] at h
    by_cases hd2 : pyUpper (pyStrip dp) = ""
    · rw [hd2]
      exact matchesDept_empty r
    · unfold skipDof at h
      dsimp only at h
      rw [if_neg hd2, Bool.not_eq_false'] at h
      unfold matchesDept
      exact h

theorem parseLevelC_ne_empty {lv c : String} (h : parseLevelC lv = some c) : c ≠ "" := by
  unfold parseLevelC at h
  intro hc
  subst hc
  split at h
  · have := (Option.some.injEq _ _).mp h
    exact absurd (congrArg String.data this) (by simp)
  split at h
  · have := (Option.some.injEq _ _).mp h
    exact absurd (congrArg String.data this) (by simp)
  split at h
  · have := (Option.some.injEq _ _).mp h
    exact absurd (congrArg String.data this) (by simp)
  · split at h
    · exact absurd h (by simp)
    · have := (Option.some.injEq _ _).mp h
      exact absurd (congrArg String.data this) (by simp)

theorem matchesLevel_of_cue {lv c : String} {r : Record} (hlv : lv ≠ "")
    (hc : parseLevelC lv = some c) (hcs : parseLevelS lv = c)
    (h : skipLof (lvlCue (some lv)) r = false) : matchesLevel (parseLevelS lv) r = true := by
  rw [lvlCue, if_neg hlv, hc] at h
  unfold skipLof at h
  simp only [Bool.and_eq_false_iff] at h
  cases h with
  | inl h => exact absurd (by simpa using h) (parseLevelC_ne_empty hc)
  | inr h =>
    unfold matchesLevel
    rw [hcs]
    simpa using h

theorem pyLower_ne_empty {s : String} (h : s ≠ "") : pyLower s ≠ "" := by
  intro hl
  apply h
  apply str_ext
  have : (pyLower s).data = [] := congrArg String.data hl
  rw [show (pyLower s).data = s.data.map Char.toLower from rfl] at this
  simpa using this

theorem matchesTime_of_cue {tstr : String} {r : Record} (ht : pyStrip tstr ≠ "")
    (h : skipTof (bCue (some tstr)) r = false) :
    matchesTime (pyLower (pyStrip tstr)) r = true := by
  have htne : tstr ≠ "" := by
    intro he
    exact ht (by rw [he]; rfl)
  rw [bCue, if_neg htne] at h
  unfold skipTof at h
  dsimp only at h
  rw [if_neg (pyLower_ne_empty ht), Bool.not_eq_false'] at h
  unfold matchesTime
  exact h

/-! ### Lemmas: the time bucketer -/

theorem digit_toNat {c : Char} (h : c.isDigit = true) : 48 ≤ c.toNat ∧ c.toNat ≤ 57 := by
  simp only [Char.isDigit, Bool.and_eq_true, decide_eq_true_eq] at h
  exact h

theorem tryHHMM2_shape {l : List Char} {hhs mms : String}
    (h : tryHHMM2 l = some (hhs, mms)) :
    ∃ d1 d2 m1 m2, hhs.data = [d1, d2] ∧ mms.data = [m1, m2] ∧
      d1.isDigit = true ∧ d2.isDigit = true ∧ m1.isDigit = true ∧ m2.isDigit = true := by
  unfold tryHHMM2 at h
  split at h
  · rename_i d1 d2 m1 m2 rest
    split at h
    · rename_i hcond
      simp only [Bool.and_eq_true] at hcond
      obtain ⟨⟨⟨⟨hd1, hd2⟩, hm1⟩, hm2⟩, -⟩ := hcond
      obtain ⟨hh, hm⟩ := Prod.mk.injEq _ _ _ _ ▸ (Option.some.injEq _ _).mp h
      exact ⟨d1, d2, m1, m2, by rw [← hh], by rw [← hm], hd1, hd2, hm1, hm2⟩
    · exact absurd h (by simp)
  · exact absurd h (by simp)

theorem tryHHMM1_shape {l : List Char} {hhs mms : String}
    (h : tryHHMM1 l = some (hhs, mms)) :
    ∃ d1 m1 m2, hhs.data = [d1] ∧ mms.data = [m1, m2] ∧
      d1.isDigit = true ∧ m1.isDigit = true ∧ m2.isDigit = true := by
  unfold tryHHMM1 at h
  split at h
  · rename_i d1 m1 m2 rest
    split at h
    · rename_i hcond
      simp only [Bool.and_eq_true] at hcond
      obtain ⟨⟨⟨hd1, hm1⟩, hm2⟩, -⟩ := hcond
      obtain ⟨hh, hm⟩ := Prod.mk.injEq _ _ _ _ ▸ (Option.some.injEq _ _).mp h
      exact ⟨d1, m1, m2, by rw [← hh], by rw [← hm], hd1, hm1, hm2⟩
    · exact absurd h (by simp)
  · exact absurd h (by simp)

theorem findHHMMAux_shape (l : List Char) : ∀ (prev : Bool) (hhs mms : String),
    findHHMMAux prev l = some (hhs, mms) →
    ((∃ d1, hhs.data = [d1] ∧ d1.isDigit = true) ∨
     (∃ d1 d2, hhs.data = [d1, d2] ∧ d1.isDigit = true ∧ d2.isDigit = true)) ∧
    (∃ m1 m2, mms.data = [m1, m2] ∧ m1.isDigit = true ∧ m2.isDigit = true) := by
  induction l with
  | nil => intro prev hhs mms h; simp [findHHMMAux] at h
  | cons c rest ih =>
    intro prev hhs mms h
    unfold findHHMMAux at h
    split at h
    · split at h
      · rename_i r hr
        obtain rfl := (Option.some.injEq _ _).mp h
        cases h2 : tryHHMM2 (c :: rest) with
        | some p =>
          rw [h2] at hr
          simp only [Option.some_orElse] at hr
          obtain rfl : p = (hhs, mms) := (Option.some.injEq _ _).mp hr
          obtain ⟨d1, d2, m1, m2, ha, hb, hc, hd, he, hf⟩ := tryHHMM2_shape h2
          exact ⟨Or.inr ⟨d1, d2, ha, hc, hd⟩, m1, m2, hb, he, hf⟩
        | none =>
          rw [h2] at hr
          simp only [Option.none_orElse] at hr
          obtain ⟨d1, m1, m2, ha, hb, hc, hd, he⟩ := tryHHMM1_shape hr
          exact ⟨Or.inl ⟨d1, ha, hc⟩, m1, m2, hb, hd, he⟩
      · exact ih _ _ _ h
    · exact ih _ _ _ h

theorem decDigits_pair {s : String} {m1 m2 : Char} (hd : s.data = [m1, m2]) :
    decDigits s = 10 * (m1.toNat - 48) + (m2.toNat - 48) := by
  simp [decDigits, hd, List.foldl]

theorem decDigits_single {s : String} {d1 : Char} (hd : s.data = [d1]) :
    decDigits s = d1.toNat - 48 := by
  simp [decDigits, hd, List.foldl]

set_option maxRecDepth 10000 in
theorem pad2_digits : ∀ a < 10, ∀ b < 10,
    (pad2 (10 * a + b)).data = [Char.ofNat (48 + a), Char.ofNat (48 + b)] := by decide

theorem mms_eq_pad2 {mms : String} {m1 m2 : Char} (hd : mms.data = [m1, m2])
    (h1 : m1.isDigit = true) (h2 : m2.isDigit = true) :
    mms = pad2 (decDigits mms) := by
  obtain ⟨b1, b1'⟩ := digit_toNat h1
  obtain ⟨b2, b2'⟩ := digit_toNat h2
  have hv := decDigits_pair hd
  apply str_ext
  rw [hv, pad2_digits (m1.toNat - 48) (by omega) (m2.toNat - 48) (by omega), hd]
  have e1 : 48 + (m1.toNat - 48) = m1.toNat := by omega
  have e2 : 48 + (m2.toNat - 48) = m2.toNat := by omega
  rw [e1, e2, Char.ofNat_toNat, Char.ofNat_toNat]

theorem hh_le99 {hhs : String}
    (h : (∃ d1, hhs.data = [d1] ∧ d1.isDigit = true) ∨
         (∃ d1 d2, hhs.data = [d1, d2] ∧ d1.isDigit = true ∧ d2.isDigit = true)) :
    decDigits hhs ≤ 99 := by
  cases h with
  | inl h =>
    obtain ⟨d1, hd, hdig⟩ := h
    obtain ⟨b1, b1'⟩ := digit_toNat hdig
    rw [decDigits_single hd]
    omega
  | inr h =>
    obtain ⟨d1, d2, hd, hdig1, hdig2⟩ := h
    obtain ⟨b1, b1'⟩ := digit_toNat hdig1
    obtain ⟨b2, b2'⟩ := digit_toNat hdig2
    rw [decDigits_pair hd]
    omega

theorem resolveStart_bound {t hhs mms : String} (h : findHHMM t = some (hhs, mms))
    (hb : decDigits hhs ≤ 99) :
    ∃ hh ≤ 111, resolveStart t = some (pad2 hh ++ ":" ++ mms) := by
  unfold resolveStart
  rw [h]
  dsimp only
  by_cases h1 : (hasPM (preOf t) && decide (decDigits hhs ≠ 12)) = true
  · rw [if_pos h1]
    by_cases h2 : (hasAM (preOf t) && decide (decDigits hhs + 12 = 12)) = true
    · rw [if_pos h2]
      exact ⟨0, by omega, rfl⟩
    · rw [if_neg h2]
      exact ⟨decDigits hhs + 12, by omega, rfl⟩
  · rw [if_neg h1]
    by_cases h2 : (hasAM (preOf t) && decide (decDigits hhs = 12)) = true
    · rw [if_pos h2]
      exact ⟨0, by omega, rfl⟩
    · rw [if_neg h2]
      exact ⟨decDigits hhs, by omega, rfl⟩

theorem findHHMM_ne_empty {t : String} {p : String × String} (h : findHHMM t = some p) :
    t ≠ "" := by
  intro ht
  rw [ht] at h
  simp [findHHMM, findHHMMAux] at h

theorem time_in_bin_eval {t s : String} (hr : resolveStart t = some s) (ht : t ≠ "")
    {label lo hi : String} (hb : _DEF_BINS label = some (lo, hi)) :
    _time_in_bin t label = (strLE lo s && strLE s hi) := by
  unfold _time_in_bin
  rw [hb]
  simp [ht, hr]

theorem time_in_bin_unknown (t : String) {label : String} (hb : _DEF_BINS label = none) :
    _time_in_bin t label = false := by
  unfold _time_in_bin
  rw [hb]

/-- The partition property of a resolved start string: inside the uncovered
ranges no bucket holds; outside them exactly one of the three bucket
comparisons holds. -/
def partProp (s : String) : Bool :=
  if (strLE "00:00" s && strLE s "05:59") || (strLE "23:00" s && strLE s "99:59") then
    !(strLE "06:00" s && strLE s "11:59") && !(strLE "12:00" s && strLE s "17:00") &&
      !(strLE "17:01" s && strLE s "22:59")
  else
    (strLE "06:00" s && strLE s "11:59").toNat + (strLE "12:00" s && strLE s "17:00").toNat +
      (strLE "17:01" s && strLE s "22:59").toNat == 1

set_option maxRecDepth 1000000 in
set_option maxHeartbeats 2000000 in
theorem partition_core : ∀ hh < 112, ∀ v < 60,
    partProp (pad2 hh ++ ":" ++ pad2 v) = true := by decide

/-! ### Lemmas: degraded cues of the combined filter -/

theorem filtered_loop_empty_bucket (q dep lvl : Option String) (cap : Nat) :
    ∀ (records : List Record) (out : List DetailRow),
      filtered_loop q dep lvl (some "") cap records out =
        filtered_loop q dep lvl none cap records out := by
  intro records
  induction records with
  | nil => intro out; rfl
  | cons s rest ih =>
    intro out
    unfold filtered_loop
    simp [ih]

theorem filtered_loop_unknown_bucket (q dep lvl : Option String) (b : String) (cap : Nat)
    (hb : b ≠ "") (hbin : _DEF_BINS b = none) :
    ∀ (records : List Record) (out : List DetailRow), (∀ r ∈ records, r.wf = true) →
      filtered_loop q dep lvl (some b) cap records out = some out := by
  intro records
  induction records with
  | nil => intro out _; rfl
  | cons s rest ih =>
    intro out hwf
    rw [filtered_loop_cons q dep lvl (some b) cap s rest out (hwf s (by simp))]
    have hskip : skipTof (some b) s = true := by
      unfold skipTof
      dsimp only
      rw [if_neg hb, time_in_bin_unknown _ hbin]
      rfl
    have hc : cPred q dep lvl (some b) s = false := by
      simp [cPred, hskip]
    rw [hc]
    simp only [Bool.false_eq_true, if_false]
    exact ih out (fun x hx => hwf x (by simp [hx]))

/-! ### Concrete sample records for witnesses and counterexamples -/

/-- The record of the spec's Scenario A, under the dataset's real keys. -/
def sampleRec : Record :=
  { Subject := .str "CS"
    Crs_Number := .str "262"
    Sec_Number := .str "01"
    Section_Title := .str "Software Eng"
    Desc := .str "Testing and teamwork."
    MtgPattern := .str "MWF 09:30" }

/-- A record with an unrelated id. -/
def otherRec : Record :=
  { Subject := .str "MATH"
    Crs_Number := .str "101"
    Sec_Number := .str "A" }

/-- First of two records sharing the id "CS 262-01". -/
def dupFirst : Record :=
  { Subject := .str "CS"
    Crs_Number := .str "262"
    Sec_Number := .str "01"
    Desc := .str "first" }

/-- Second of two records sharing the id "CS 262-01". -/
def dupSecond : Record :=
  { Subject := .str "CS"
    Crs_Number := .str "262"
    Sec_Number := .str "01"
    Desc := .str "second" }

/-! ### Claims -/

/-- C2 counterexample: the claim as stated is false.  From `"25:30"` an
`HH:MM` pattern is extractable with valid minutes, the resolved start time is
`"25:30"`, which lies in neither of the claim's exempted ranges
`"00:00"`–`"05:59"` and `"23:00"`–`"23:59"`, and yet all three buckets
classify false instead of exactly one. -/
theorem claim_C2_counterexample :
    findHHMM "25:30" = some ("25", "30") ∧ decDigits "30" ≤ 59 ∧
    resolveStart "25:30" = some "25:30" ∧
    ((strLE "00:00" "25:30" && strLE "25:30" "05:59") ||
      (strLE "23:00" "25:30" && strLE "25:30" "23:59")) = false ∧
    _time_in_bin "25:30" "morning" = false ∧
    _time_in_bin "25:30" "afternoon" = false ∧
    _time_in_bin "25:30" "evening" = false := by decide

/-- C2 (amended): time bucketing is a partition over parseable times, with
the uncovered gap widened to all resolved start times in `"00:00"`–`"05:59"`
and `"23:00"`–`"99:59"` (lexicographically; the original claim exempted only
`"23:00"`–`"23:59"`, but two-digit resolved hours 24–99, reachable directly
or through the PM adjustment, also classify false everywhere).  For any text
with an extractable `HH:MM` whose minutes are at most 59: inside the gap all
three buckets classify false, outside it exactly one classifies true; and the
boundaries behave as claimed — 12:00 and 17:00 are afternoon, 17:01 is
evening. -/
theorem claim_C2_time_partition :
    (∀ t hhs mms : String, findHHMM t = some (hhs, mms) → decDigits mms ≤ 59 →
      ∀ s, resolveStart t = some s →
        (((strLE "00:00" s && strLE s "05:59") ||
            (strLE "23:00" s && strLE s "99:59")) = true →
          _time_in_bin t "morning" = false ∧ _time_in_bin t "afternoon" = false ∧
            _time_in_bin t "evening" = false) ∧
        (((strLE "00:00" s && strLE s "05:59") ||
            (strLE "23:00" s && strLE s "99:59")) = false →
          (_time_in_bin t "morning").toNat + (_time_in_bin t "afternoon").toNat +
            (_time_in_bin t "evening").toNat = 1)) ∧
    _time_in_bin "12:00" "afternoon" = true ∧ _time_in_bin "12:00" "morning" = false ∧
    _time_in_bin "17:00" "afternoon" = true ∧ _time_in_bin "17:00" "evening" = false ∧
    _time_in_bin "17:01" "evening" = true ∧ _time_in_bin "17:01" "afternoon" = false := by
  refine ⟨?_, by decide, by decide, by decide, by decide, by decide, by decide⟩
  intro t hhs mms hfind hmm s hres
  obtain ⟨hshape, m1, m2, hmd, hm1, hm2⟩ := findHHMMAux_shape t.data false hhs mms hfind
  have hb99 := hh_le99 hshape
  obtain ⟨hh, hh111, hres'⟩ := resolveStart_bound hfind hb99
  have hmmpad := mms_eq_pad2 hmd hm1 hm2
  rw [hres'] at hres
  have hs : s = pad2 hh ++ ":" ++ pad2 (decDigits mms) := by
    rw [← hmmpad]
    exact ((Option.some.injEq _ _).mp hres).symm
  have ht := findHHMM_ne_empty hfind
  have hres2 : resolveStart t = some s := by rw [hres', hres]
  have em := time_in_bin_eval hres2 ht
    (show _DEF_BINS "morning" = some ("06:00", "11:59") from rfl)
  have ea := time_in_bin_eval hres2 ht
    (show _DEF_BINS "afternoon" = some ("12:00", "17:00") from rfl)
  have ee := time_in_bin_eval hres2 ht
    (show _DEF_BINS "evening" = some ("17:01", "22:59") from rfl)
  have hcore : partProp s = true := by
    rw [hs]
    exact partition_core hh (by omega) (decDigits mms) (by omega)
  constructor
  · intro hexc
    unfold partProp at hcore
    rw [hexc] at hcore
    simp only [if_true, Bool.and_eq_true, Bool.not_eq_true'] at hcore
    rw [em, ea, ee]
    exact ⟨hcore.1.1, hcore.1.2, hcore.2⟩
  · intro hexc
    unfold partProp at hcore
    rw [hexc] at hcore
    simp only [Bool.false_eq_true, if_false, beq_iff_eq] at hcore
    rw [em, ea, ee]
    exact hcore

/-- C2 witness: "07:15" is extractable, has valid minutes, resolves outside
the gap, and is classified by exactly one bucket. -/
theorem claim_C2_witness :
    (_time_in_bin "07:15" "morning").toNat + (_time_in_bin "07:15" "afternoon").toNat +
      (_time_in_bin "07:15" "evening").toNat = 1 :=
  (claim_C2_time_partition.1 "07:15" "07" "15" (by decide) (by decide) "07:15"
    (by decide)).2 (by decide)

/-- C1: the claim (and `sec_level`'s own docstring) says the normalized level
always lies in the set containing the empty string and "100"–"400".  The code
violates this: when `AcadLevel` is unusable it appends "00" to the first digit
of the course number, whatever that digit is, so course number "562" yields
"500".  This theorem evaluates the code at that failing input. -/
theorem claim_C1_level_bug :
    sec_level { Crs_Number := .str "562" } = "500" ∧
    ("500" : String) ∉ (["", "100", "200", "300", "400"] : List String) := by
  constructor
  · rfl
  · decide

/-- C4: id lookup round-trips the synthesized identity.  For every well-formed
dataset and every record `r` in it, `get_section_details (sec_id r)` returns a
found record (never the not-found value) whose synthesized id equals
`sec_id r`, and that record is one of the matching records of the dataset. -/
theorem claim_C4_id_roundtrip :
    ∀ (records : List Record) (r : Record) (sid : String),
    (∀ s ∈ records, s.wf = true) → r ∈ records → sec_id r = some sid →
    ∃ s, get_section_details records sid = some (.found s) ∧ s ∈ records ∧
      sec_id s = some sid := by
  intro records r sid hwf hr hid
  unfold get_section_details
  rw [sec_raw_id_fixed hid]
  exact get_details_loop_mem records r sid hwf hr hid

/-- C4 witness: the Scenario-A record is found again under its own id. -/
theorem claim_C4_witness :
    ∃ s, get_section_details [sampleRec] "CS 262-01" = some (.found s) ∧
      s ∈ [sampleRec] ∧ sec_id s = some "CS 262-01" :=
  claim_C4_id_roundtrip [sampleRec] sampleRec "CS 262-01" (by decide) (by decide) (by decide)

/-- C5 (amended): the normalizer is total on records whose present values are
strings or null — every derivation returns a string (`sec_level` is total by
construction, its two fields go through Python `str`).  The original claim
also asserted totality for arbitrary non-string values; that part is refuted
by `claim_C5_counterexample`: a truthy non-string reaching `_norm` raises
rather than being coerced to the empty string. -/
theorem claim_C5_normalizer_total :
    ∀ r : Record, r.wf = true →
      (sec_raw_id r).isSome = true ∧ (sec_id r).isSome = true ∧
      (sec_name r).isSome = true ∧ (sec_title r).isSome = true ∧
      (sec_desc r).isSome = true ∧ (sec_dept r).isSome = true ∧
      (sec_time_str r).isSome = true := by
  intro r h
  refine ⟨?_, ?_, ?_, ?_, ?_, ?_, ?_⟩
  · rw [sec_raw_id_wf h]; rfl
  · rw [sec_id_wf h]; rfl
  · rw [sec_name_wf h]; rfl
  · rw [sec_title_wf h]; rfl
  · rw [sec_desc_wf h]; rfl
  · rw [sec_dept_wf h]; rfl
  · rw [sec_time_wf h]; rfl

/-- C5 counterexample: with `Subject` bound to the integer 1 (truthy,
non-string), Python computes `(1).strip()` and raises `AttributeError`; in
the embedding `sec_dept` and `sec_id` return `none` instead of a string, so
non-string values are not "coerced to the empty string". -/
theorem claim_C5_counterexample :
    sec_dept { Subject := PyVal.int 1 } = none ∧
    sec_id { Subject := PyVal.int 1 } = none := by
  constructor
  · rfl
  · rfl

/-- C5 witness: on a concrete string/null-valued record every derivation
succeeds. -/
theorem claim_C5_witness :
    (sec_raw_id { Subject := .str "CS" }).isSome = true ∧
    (sec_id { Subject := .str "CS" }).isSome = true ∧
    (sec_name { Subject := .str "CS" }).isSome = true ∧
    (sec_title { Subject := .str "CS" }).isSome = true ∧
    (sec_desc { Subject := .str "CS" }).isSome = true ∧
    (sec_dept { Subject := .str "CS" }).isSome = true ∧
    (sec_time_str { Subject := .str "CS" }).isSome = true :=
  claim_C5_normalizer_total _ (by decide)

/-- C8: the id-lookup override takes priority in intent resolution.  Whenever
the lowercased utterance contains "details", "tell me more" or "id ", and the
id regex (on the original utterance) or the bare 5+-digit run (on the
lowercased one) captures an id, `detect_intent` returns the id-lookup intent
with that id stripped — regardless of any department, level, time-of-day or
keyword cues the utterance would also match. -/
theorem claim_C8_details_override :
    ∀ utterance : String,
      (pyIn "details" (pyLower utterance) || pyIn "tell me more" (pyLower utterance) ||
        pyIn "id " (pyLower utterance)) = true →
      ∀ sid, searchSid utterance (pyLower utterance) = some sid →
      detect_intent utterance = .get_details (pyStrip sid) := by
  intro utterance hphrase sid hsid
  unfold detect_intent
  dsimp only
  rw [hphrase, if_pos rfl]
  rw [hsid]

/-- C8 witness: "details ENGL 300-A" resolves to id lookup even though the
utterance also carries a department alias ("engl") and a level cue ("300"). -/
theorem claim_C8_witness :
    detect_intent "details ENGL 300-A" = .get_details "ENGL 300-A" ∧
    _normalize_department "details ENGL 300-A" = some "ENGLISH" ∧
    detectLevel (pyLower "details ENGL 300-A") = some "300" := by
  refine ⟨?_, by decide, by decide⟩
  have h := claim_C8_details_override "details ENGL 300-A" (by decide) "ENGL 300-A" (by decide)
  rw [h]
  rfl

/-- C9: when several records synthesize the same id, `get_section_details`
returns the first matching record in dataset iteration order; records after
the first match (here, the arbitrary `post`, which need not even be
well-formed) are never consulted. -/
theorem claim_C9_first_match :
    ∀ (pre post : List Record) (r : Record) (sid : String),
    (∀ s ∈ pre, s.wf = true) → sec_id r = some sid →
    (∀ s ∈ pre, sec_id s ≠ some sid) →
    get_section_details (pre ++ r :: post) sid = some (.found r) := by
  intro pre post r sid hwf hid hmiss
  unfold get_section_details
  rw [sec_raw_id_fixed hid]
  exact get_details_loop_first pre post r sid hwf hid hmiss

/-- C9 witness: with two records sharing id "CS 262-01" behind an unrelated
record, lookup returns the first of the duplicates and never the second. -/
theorem claim_C9_witness :
    get_section_details [otherRec, dupFirst, dupSecond] "CS 262-01" =
      some (.found dupFirst) :=
  claim_C9_first_match [otherRec] [dupSecond] dupFirst "CS 262-01"
    (by decide) (by decide) (by decide)

/-- C10: a blank department argument selects every record: after trimming the
code is the empty string, which every uppercased department starts with, so
the department filter returns one summary per record of the dataset. -/
theorem claim_C10_empty_department :
    ∀ (records : List Record) (department : String),
    (∀ r ∈ records, r.wf = true) → pyStrip department = "" →
    find_sections_by_department records department = some (records.map deptRowOf) := by
  intro records department hwf hd
  rw [find_dept_eq records department hwf, hd]
  rw [show pyUpper "" = "" from rfl]
  rw [List.filter_eq_self.mpr (fun a _ => matchesDept_empty a)]

/-- C10 witness: a whitespace-only department argument returns a summary for
both records of a concrete dataset. -/
theorem claim_C10_witness :
    find_sections_by_department [sampleRec, otherRec] " " =
      some ([sampleRec, otherRec].map deptRowOf) :=
  claim_C10_empty_department [sampleRec, otherRec] " " (by decide) (by decide)

/-- The preview described by the claim: the first 220 characters of the
description, with an ellipsis appended if and only if the description was
truncated.  This follows the spec's words, for comparison with the code. -/
def specPreview (d : String) : String :=
  if d.length > 220 then d.take 220 ++ "…" else d

set_option maxRecDepth 100000 in
/-- C6 counterexample: for a record whose description is "abc" (shorter than
220 characters), the combined filter's preview is "abc…" — the code appends
the ellipsis whenever the description is non-empty, not only on truncation as
the claim states. -/
theorem claim_C6_counterexample :
    (find_sections_filtered none none none none 50 [{ Desc := PyVal.str "abc" }]).map
      (fun l => l.map DetailRow.preview) = some ["abc…"] ∧
    specPreview "abc" = "abc" ∧ ("abc…" : String) ≠ "abc" := by decide

/-- C6 (amended): for every record the combined filter returns, the preview
equals the first 220 characters of the normalized description with "…"
appended whenever the description is non-empty (even when nothing was
truncated); an empty description gives an empty preview. -/
theorem claim_C6_preview :
    ∀ (records : List Record) (query department level time_of_day : Option String)
      (limit : Int),
    (∀ r ∈ records, r.wf = true) →
    ∀ out row,
      find_sections_filtered query department level time_of_day limit records = some out →
      row ∈ out →
    ∃ r d, r ∈ records ∧ sec_desc r = some d ∧
      row.preview = (if d ≠ "" then d.take 220 ++ "…" else "") := by
  intro records query dep lvl tod lim hwf out row hout hrow
  rw [find_sections_filtered_eq _ _ _ _ _ _ hwf] at hout
  obtain rfl := (Option.some.injEq _ _).mp hout
  have hrow' := List.take_subset _ _ hrow
  obtain ⟨r, hrfilt, hroweq⟩ := List.mem_map.mp hrow'
  obtain ⟨hrmem, -⟩ := List.mem_filter.mp hrfilt
  refine ⟨r, sec_descD r, hrmem, sec_desc_wf (hwf r hrmem), ?_⟩
  rw [← hroweq]
  rfl

set_option maxRecDepth 100000 in
/-- C6 witness: the amended preview rule at a record with description
"abc". -/
theorem claim_C6_witness :
    ∃ r d, r ∈ [({ Desc := PyVal.str "abc" } : Record)] ∧ sec_desc r = some d ∧
      (DetailRow.preview ⟨"|", "-", "", "", "", "", "abc…"⟩) =
        (if d ≠ "" then d.take 220 ++ "…" else "") :=
  claim_C6_preview [{ Desc := PyVal.str "abc" }] none none none none 50 (by decide)
    [⟨"|", "-", "", "", "", "", "abc…"⟩] ⟨"|", "-", "", "", "", "", "abc…"⟩
    (by decide) (by decide)

set_option maxRecDepth 100000 in
/-- C7 counterexample: a time_of_day argument naming no known bucket does not
degrade to "no constraint": with bucket "night" the combined filter returns
nothing, while with the predicate absent it returns the record. -/
theorem claim_C7_counterexample :
    find_sections_filtered none none none (some "night") 50 [({} : Record)] = some [] ∧
    find_sections_filtered none none none none 50 [({} : Record)] =
      some [⟨"|", "-", "", "", "", "", ""⟩] := by decide

/-- C7 (amended): invalid filter arguments degrade to "no constraint" exactly
when they resolve to empty cues.  In the combined filter: a level argument
with no parseable cue behaves as if the level predicate were absent, and a
time_of_day argument that is blank after trimming behaves as if the time
predicate were absent; but a non-blank time_of_day naming no known bucket
excludes every record instead.  No case raises. -/
theorem claim_C7_invalid_args :
    (∀ (records : List Record) (q dep tod : Option String) (lim : Int) (lv : String),
      parseLevelC lv = none →
      find_sections_filtered q dep (some lv) tod lim records =
        find_sections_filtered q dep none tod lim records) ∧
    (∀ (records : List Record) (q dep lvl : Option String) (lim : Int) (tstr : String),
      pyStrip tstr = "" →
      find_sections_filtered q dep lvl (some tstr) lim records =
        find_sections_filtered q dep lvl none lim records) ∧
    (∀ (records : List Record) (q dep lvl : Option String) (lim : Int) (tstr : String),
      (∀ r ∈ records, r.wf = true) → pyStrip tstr ≠ "" →
      _DEF_BINS (pyLower (pyStrip tstr)) = none →
      find_sections_filtered q dep lvl (some tstr) lim records = some []) := by
  refine ⟨?_, ?_, ?_⟩
  · intro records q dep tod lim lv hparse
    unfold find_sections_filtered
    have hcue : lvlCue (some lv) = lvlCue none := by
      unfold lvlCue
      by_cases h : lv = "" <;> simp [h, hparse]
    rw [hcue]
  · intro records q dep lvl lim tstr hstrip
    unfold find_sections_filtered
    by_cases h : tstr = ""
    · have hcue : bCue (some tstr) = bCue none := by
        unfold bCue
        simp [h]
      rw [hcue]
    · have hcue : bCue (some tstr) = some "" := by
        have e : bCue (some tstr) =
            if tstr = "" then none else some (pyLower (pyStrip tstr)) := rfl
        rw [e, if_neg h, hstrip]
        rfl
      rw [hcue]
      exact filtered_loop_empty_bucket (qCue q) (depCue dep) (lvlCue lvl)
        (max 1 lim).toNat records []
  · intro records q dep lvl lim tstr hwf hne hbin
    unfold find_sections_filtered
    have htne : tstr ≠ "" := fun he => hne (by rw [he]; rfl)
    have hcue : bCue (some tstr) = some (pyLower (pyStrip tstr)) := by
      simp only [bCue]
      rw [if_neg htne]
    rw [hcue]
    exact filtered_loop_unknown_bucket (qCue q) (depCue dep) (lvlCue lvl) _ _
      (pyLower_ne_empty hne) hbin records [] hwf

set_option maxRecDepth 100000 in
/-- C7 witness: the three amended behaviours at concrete inputs — an
unparseable level and a blank time_of_day are no-ops, an unknown non-blank
bucket empties the result. -/
theorem claim_C7_witness :
    find_sections_filtered none none (some "abc") none 50 [({} : Record)] =
      find_sections_filtered none none none none 50 [({} : Record)] ∧
    find_sections_filtered none none none (some " ") 50 [({} : Record)] =
      find_sections_filtered none none none none 50 [({} : Record)] ∧
    find_sections_filtered none none none (some "night") 50 [({} : Record)] = some [] :=
  ⟨claim_C7_invalid_args.1 [({} : Record)] none none none 50 "abc" (by decide),
   claim_C7_invalid_args.2.1 [({} : Record)] none none none 50 " " (by decide),
   claim_C7_invalid_args.2.2 [({} : Record)] none none none 50 "night" (by decide)
     (by decide) (by decide)⟩

set_option maxRecDepth 1000000 in
/-- C3 counterexample: the combined filter's result is not always a subset of
the single-predicate results.  With the level argument "abc" (no parseable
cue), the combined filter treats the level as unconstrained and returns the
200-level Scenario-A record, while `find_sections_by_level` with the same
argument canonicalizes "abc" to the empty level and returns nothing. -/
theorem claim_C3_counterexample :
    find_sections_filtered none none (some "abc") none 50 [sampleRec] =
      some [⟨"CS 262-01", "CS 262-01", "Software Eng", "CS", "200", "MWF 09:30",
        "Testing and teamwork.…"⟩] ∧
    find_sections_by_level [sampleRec] "abc" = some [] := by decide

/-- C3 (amended): the combined filter has AND-semantics with respect to the
single-predicate capabilities, provided each supplied level argument
canonicalizes to the same cue under the combined and the standalone parses,
and each supplied time_of_day argument is non-blank after trimming (the
original unconditional claim is refuted by `claim_C3_counterexample`: the two
level parses differ and blank/unknown time arguments degrade differently).
Under those conditions, every row the combined filter returns arises from a
record of the dataset that each corresponding single-predicate capability,
applied with the same argument, also returns. -/
theorem claim_C3_and_semantics :
    ∀ (records : List Record) (query department level time_of_day : Option String)
      (limit : Int),
    (∀ r ∈ records, r.wf = true) →
    (∀ lv, level = some lv → lv ≠ "" ∧ ∃ c, parseLevelC lv = some c ∧ parseLevelS lv = c) →
    (∀ tstr, time_of_day = some tstr → pyStrip tstr ≠ "") →
    ∀ out row,
      find_sections_filtered query department level time_of_day limit records = some out →
      row ∈ out →
    ∃ r ∈ records,
      sec_id r = some row.section_id ∧ sec_name r = some row.section_name ∧
      sec_title r = some row.course_title ∧
      (∀ qs, query = some qs → ∃ o, find_courses records qs = some o ∧
        (⟨row.section_id, row.section_name, row.course_title, row.department,
          row.level, row.time⟩ : CourseRow) ∈ o) ∧
      (∀ dp, department = some dp → ∃ o, find_sections_by_department records dp = some o ∧
        (⟨row.section_id, row.section_name, row.course_title, row.time⟩ : DeptRow) ∈ o) ∧
      (∀ lv, level = some lv → ∃ o, find_sections_by_level records lv = some o ∧
        (⟨row.section_id, row.section_name, row.course_title⟩ : ShortRow) ∈ o) ∧
      (∀ tstr, time_of_day = some tstr → ∃ o, find_sections_by_time records tstr = some o ∧
        (⟨row.section_id, row.section_name, row.course_title⟩ : ShortRow) ∈ o) := by
  intro records query department level tod lim hwf hlvlh htodh out row hout hrow
  rw [find_sections_filtered_eq _ _ _ _ _ _ hwf] at hout
  obtain rfl := (Option.some.injEq _ _).mp hout
  have hrow' := List.take_subset _ _ hrow
  obtain ⟨r, hrfilt, hroweq⟩ := List.mem_map.mp hrow'
  obtain ⟨hrmem, hpred⟩ := List.mem_filter.mp hrfilt
  unfold cPred at hpred
  simp only [Bool.and_eq_true, Bool.not_eq_true'] at hpred
  obtain ⟨⟨⟨hQ, hD⟩, hL⟩, hT⟩ := hpred
  subst hroweq
  refine ⟨r, hrmem, ?_, ?_, ?_, ?_, ?_, ?_, ?_⟩
  · rw [sec_id_wf (hwf r hrmem)]
    rfl
  · rw [sec_name_wf (hwf r hrmem)]
    rfl
  · rw [sec_title_wf (hwf r hrmem)]
    rfl
  · intro qs hq
    subst hq
    refine ⟨_, find_courses_eq records qs hwf, ?_⟩
    exact List.mem_map_of_mem courseRowOf
      (List.mem_filter.mpr ⟨hrmem, matchesText_of_cue hQ⟩)
  · intro dp hdp
    subst hdp
    refine ⟨_, find_dept_eq records dp hwf, ?_⟩
    exact List.mem_map_of_mem deptRowOf
      (List.mem_filter.mpr ⟨hrmem, matchesDept_of_cue hD⟩)
  · intro lv hlv
    subst hlv
    obtain ⟨hlvne, c, hc1, hc2⟩ := hlvlh lv rfl
    refine ⟨_, find_level_eq records lv hwf, ?_⟩
    exact List.mem_map_of_mem shortRowOf
      (List.mem_filter.mpr ⟨hrmem, matchesLevel_of_cue hlvne hc1 hc2 hL⟩)
  · intro tstr htstr
    subst htstr
    refine ⟨_, find_time_eq records tstr hwf, ?_⟩
    exact List.mem_map_of_mem shortRowOf
      (List.mem_filter.mpr ⟨hrmem, matchesTime_of_cue (htodh tstr rfl) hT⟩)

set_option maxRecDepth 1000000 in
/-- C3 witness: with all four predicates supplied and agreeing, the one row
the combined filter returns is also returned by each standalone
capability. -/
theorem claim_C3_witness :
    ∃ r ∈ [sampleRec],
      sec_id r = some "CS 262-01" ∧ sec_name r = some "CS 262-01" ∧
      sec_title r = some "Software Eng" ∧
      (∀ qs, (some "Testing" : Option String) = some qs →
        ∃ o, find_courses [sampleRec] qs = some o ∧
          (⟨"CS 262-01", "CS 262-01", "Software Eng", "CS", "200",
            "MWF 09:30"⟩ : CourseRow) ∈ o) ∧
      (∀ dp, (some "CS" : Option String) = some dp →
        ∃ o, find_sections_by_department [sampleRec] dp = some o ∧
          (⟨"CS 262-01", "CS 262-01", "Software Eng", "MWF 09:30"⟩ : DeptRow) ∈ o) ∧
      (∀ lv, (some "200" : Option String) = some lv →
        ∃ o, find_sections_by_level [sampleRec] lv = some o ∧
          (⟨"CS 262-01", "CS 262-01", "Software Eng"⟩ : ShortRow) ∈ o) ∧
      (∀ tstr, (some "morning" : Option String) = some tstr →
        ∃ o, find_sections_by_time [sampleRec] tstr = some o ∧
          (⟨"CS 262-01", "CS 262-01", "Software Eng"⟩ : ShortRow) ∈ o) :=
  claim_C3_and_semantics [sampleRec] (some "Testing") (some "CS") (some "200")
    (some "morning") 50 (by decide)
    (by
      intro lv h
      injection h with h2
      subst h2
      exact ⟨by decide, "200", by decide, by decide⟩)
    (by
      intro tstr h
      injection h with h2
      subst h2
      decide)
    [⟨"CS 262-01", "CS 262-01", "Software Eng", "CS", "200", "MWF 09:30",
      "Testing and teamwork.…"⟩]
    ⟨"CS 262-01", "CS 262-01", "Software Eng", "CS", "200", "MWF 09:30",
      "Testing and teamwork.…"⟩
    (by decide) (by decide)

end CourseAdvisor
